import Mathlib

/-!
# GalaxyToolkit: the command mailbox and its dispatcher

A shallow embedding of `Modules/GalaxyToolkit/source/Core.cpp` and
`Modules/GalaxyToolkit/include/Core.h`.

* Machine integers are natural numbers. `u32` fields hold values below `2 ^ 32`;
  the only arithmetic the dispatcher performs on them is masking and right
  shifts, which cannot overflow, so no reduction modulo `2 ^ 32` is needed there.
* The calls into the game (`MR::...`, `GameSequenceFunction::...`) and into the
  logging sink (`OSReport`) are recorded, in program order, in a trace of events.
* The name lookup `MR::tryFindNamePos` is a parameter of `control`.
* The busy-wait loop of opcode `0xFE` re-reads `mToolMessage`, which an external
  writer may have rewritten in the meantime. The values it observes are given to
  `control` as a list; when the list runs out the call is still inside the loop.
* The hook code `handleException` is a list of PowerPC instructions run on a
  machine state: the general purpose registers and a byte-addressed, big-endian
  memory with 32-bit addresses. The link register and the program counter are
  not part of the state.
-/

namespace GToolkitCore

/-- A `TVec3f`: three 32-bit words (the bit patterns of three floats). -/
structure TVec3f where
  x : Nat
  y : Nat
  z : Nat
deriving DecidableEq, Repr

/-- The `JMapIdInfo` argument of `requestChangeStage`, built from two integers. -/
structure JMapIdInfo where
  fst : Int
  snd : Int
deriving DecidableEq, Repr

/-- The record `MessageData` of `Core.h`: `mToolMessage` at offset 0,
`mGameMessage` at offset 4, `mData` (64 bytes) at offset 8. -/
structure MessageData where
  mToolMessage : Nat
  mGameMessage : Nat
  mData : List Nat
deriving DecidableEq, Repr

/-- The process-wide variables of `Core.cpp`: the mailbox instance and the two
scratch variables `u8 handle` and `u32 param`. -/
structure Globals where
  sInstance : MessageData
  handle : Nat
  param : Nat
deriving DecidableEq, Repr

/-- A variadic argument of `OSReport`. -/
inductive Arg where
  | int (v : Int)
  | str (bytes : List Nat)
  | ptr (addr : Nat)
deriving DecidableEq, Repr

/-- One call that leaves the dispatcher: a log call, a game action, or the name
lookup. `OSReport none []` is the call `OSReport(NULL)`. -/
inductive Event where
  | OSReport (fmt : Option String) (args : List Arg)
  | stopStageBGM (frames : Nat)
  | closeSystemWipeCircleWithCaptureScreen (frames : Nat)
  | requestChangeScenarioSelect (name : List Nat)
  | requestChangeStage (name : List Nat) (scenarioNo : Int) (starNo : Int) (info : JMapIdInfo)
  | tryFindNamePos (name : List Nat)
  | setPlayerPos (pos : TVec3f)
deriving DecidableEq, Repr

/-- The game actions: the calls that change the scene or the player. -/
def Event.isGameAction : Event → Bool
  | .stopStageBGM _ => true
  | .closeSystemWipeCircleWithCaptureScreen _ => true
  | .requestChangeScenarioSelect _ => true
  | .requestChangeStage _ _ _ _ => true
  | .setPlayerPos _ => true
  | .OSReport _ _ => false
  | .tryFindNamePos _ => false

/-- Log calls. -/
def Event.isLog : Event → Bool
  | .OSReport _ _ => true
  | _ => false

/-- Calls of `requestChangeScenarioSelect`. -/
def Event.isScenarioSelect : Event → Bool
  | .requestChangeScenarioSelect _ => true
  | _ => false

/-- Calls of `requestChangeStage`. -/
def Event.isChangeStage : Event → Bool
  | .requestChangeStage _ _ _ _ => true
  | _ => false

/-- Calls of `setPlayerPos`. -/
def Event.isSetPlayerPos : Event → Bool
  | .setPlayerPos _ => true
  | _ => false

/-- Calls of the name lookup. -/
def Event.isLookup : Event → Bool
  | .tryFindNamePos _ => true
  | _ => false

/-- Conversion of an integer to `s8`: the low eight bits, read as two's complement. -/
def toS8 (n : Nat) : Int :=
  if n % 256 < 128 then ((n % 256 : Nat) : Int) else ((n % 256 : Nat) : Int) - 256

/-- The big-endian 32-bit word at byte offset `off` of a buffer. -/
def readWord (d : List Nat) (off : Nat) : Nat :=
  ((d.getD off 0 * 256 + d.getD (off + 1) 0) * 256 + d.getD (off + 2) 0) * 256
    + d.getD (off + 3) 0

/-- The value of `*(TVec3f *)mData`: the three words at offsets 0, 4 and 8. -/
def TVec3f.ofData (d : List Nat) : TVec3f :=
  ⟨readWord d 0, readWord d 4, readWord d 8⟩

/-- The function `parseCommand`: `handle = mToolMessage & 0xFF` (stored in a `u8`),
`param = mToolMessage >> 8`. -/
def parseCommand (g : Globals) : Globals :=
  { g with
    handle := (g.sInstance.mToolMessage &&& 0xFF) % 256
    param := g.sInstance.mToolMessage >>> 8 }

/-- How a call of `control` stands once the observed values are used up: it has
returned (with the observed values it did not read), or it is still inside the
polling loop of opcode `0xFE`. -/
inductive Outcome where
  | returned (g : Globals) (trace : List Event) (unread : List Nat)
  | spinning (g : Globals) (trace : List Event)
deriving DecidableEq, Repr

/-- The events emitted so far. -/
def Outcome.trace : Outcome → List Event
  | .returned _ t _ => t
  | .spinning _ t => t

/-- The process-wide variables as the call left them. -/
def Outcome.globals : Outcome → Globals
  | .returned g _ _ => g
  | .spinning g _ => g

/-- Whether the call has returned. -/
def Outcome.isReturned : Outcome → Bool
  | .returned _ _ _ => true
  | .spinning _ _ => false

/-- The external writer stores `v` into `mToolMessage`. -/
def Globals.observe (g : Globals) (v : Nat) : Globals :=
  { g with sInstance := { g.sInstance with mToolMessage := v } }

/-- The statement `MessageData::sInstance.mToolMessage = 0;`. -/
def Globals.clear (g : Globals) : Globals :=
  { g with sInstance := { g.sInstance with mToolMessage := 0 } }

/-- The loop `while (true) { parseCommand(); if (handle == 0xFE && param == 0) break; }`.
Each iteration decodes the next observed value of `mToolMessage`. The result is
the variables after the last decode and, when the loop was left, the observed
values not read. -/
def freezeLoop : Globals → List Nat → Globals × Option (List Nat)
  | g, [] => (g, none)
  | g, v :: vs =>
    let g1 := parseCommand (g.observe v)
    if g1.handle = 0xFE ∧ g1.param = 0 then (g1, some vs) else freezeLoop g1 vs

/-- The dispatcher `control`. `tryFindNamePos` is the name lookup, giving the
position and the rotation when the name is found; `polls` are the values of
`mToolMessage` the polling loop observes, in order. -/
def control (tryFindNamePos : List Nat → Option (TVec3f × TVec3f)) (g0 : Globals)
    (polls : List Nat) : Outcome :=
  let g := parseCommand g0
  if g.handle = 0 then
    .returned g [] polls
  else if g.handle = 1 then
    .returned g.clear [.OSReport (some "[GToolkit] Initialized Tool.\n") []] polls
  else if g.handle = 2 then
    .returned g.clear [.OSReport (some "[GToolkit] Object message not supported yet.\n") []] polls
  else if g.handle = 3 then
    let scenarioNo := toS8 ((g.sInstance.mToolMessage >>> 8) &&& 0xFF)
    let starNo := toS8 ((g.sInstance.mToolMessage >>> 16) &&& 0xFF)
    let t := [.OSReport (some "[GToolkit] Recived stage message.\n") [],
      .OSReport (some "[GToolkit] %d %d\n") [.int scenarioNo, .int starNo],
      .stopStageBGM 60,
      .closeSystemWipeCircleWithCaptureScreen 60,
      .requestChangeScenarioSelect g.sInstance.mData]
    if scenarioNo ≠ -1 then
      .returned g.clear
        (t ++ [.requestChangeStage g.sInstance.mData scenarioNo starNo ⟨0, 0⟩]) polls
    else
      .returned g.clear t polls
  else if g.handle = 4 then
    let t := [Event.OSReport (some "[GToolkit] Recived warp message.\n") []]
    if g.param = 0 then
      .returned g.clear (t ++ [.setPlayerPos (TVec3f.ofData g.sInstance.mData)]) polls
    else
      match tryFindNamePos g.sInstance.mData with
      | some (position, _) =>
        .returned g.clear
          (t ++ [.tryFindNamePos g.sInstance.mData, .setPlayerPos position]) polls
      | none =>
        .returned g.clear
          (t ++ [.tryFindNamePos g.sInstance.mData,
            .OSReport (some "[GToolkit] GeneralPos %s was not found.\n")
              [.str g.sInstance.mData]]) polls
  else if g.handle = 0xFE then
    if g.param = 0 then
      .returned g.clear [] polls
    else
      let t := [Event.OSReport (some "[GToolkit] Recived freeze message.\n") []]
      match freezeLoop g polls with
      | (g1, some unread) =>
        .returned g1.clear
          (t ++ [.OSReport (some "[GToolkit] Recived unfreeze message.\n") []]) unread
      | (g1, none) => .spinning g1 t
  else if g.handle = 0xFF then
    .returned g.clear [.OSReport none []] polls
  else
    .returned g.clear [] polls

/-- A buffer of 64 bytes holding the characters of `s` followed by zero bytes. -/
def cstr (s : String) : List Nat :=
  ((s.toList.map Char.toNat) ++ List.replicate 64 0).take 64

/-- The log call made when the freeze command is received. -/
def freezeLog : Event :=
  .OSReport (some "[GToolkit] Recived freeze message.\n") []

/-- The log call made when the release command is observed. -/
def unfreezeLog : Event :=
  .OSReport (some "[GToolkit] Recived unfreeze message.\n") []

/-- The address `TOOL_ACCESS_ADDRESS` of `Core.h`: the discovery slot. -/
def TOOL_ACCESS_ADDRESS : Nat := 0x80002FF4

/-- The byte at address `addr` of a memory (a map from addresses to bytes).
Addresses are 32 bits wide. -/
def loadByte (mem : Nat → Nat) (addr : Nat) : Nat :=
  mem (addr % 2 ^ 32) % 256

/-- The memory after a store of the low eight bits of `v` at address `addr`. -/
def storeByte (mem : Nat → Nat) (addr v : Nat) : Nat → Nat :=
  fun x => if x = addr % 2 ^ 32 then v % 256 else mem x

/-- The big-endian 32-bit word at address `addr`. -/
def loadWord (mem : Nat → Nat) (addr : Nat) : Nat :=
  ((loadByte mem addr * 256 + loadByte mem (addr + 1)) * 256 + loadByte mem (addr + 2)) * 256
    + loadByte mem (addr + 3)

/-- The memory after a big-endian store of the low 32 bits of `v` at address `addr`. -/
def storeWord (mem : Nat → Nat) (addr v : Nat) : Nat → Nat :=
  storeByte (storeByte (storeByte (storeByte mem addr (v / 2 ^ 24)) (addr + 1) (v / 2 ^ 16))
    (addr + 2) (v / 2 ^ 8)) (addr + 3) v

/-- The mailbox record laid out at address `a`, as `Core.h` gives the offsets:
`mToolMessage` at 0, `mGameMessage` at 4, the 64 bytes of `mData` from 8. -/
def MessageData.load (mem : Nat → Nat) (a : Nat) : MessageData :=
  ⟨loadWord mem a, loadWord mem (a + 4), (List.range 64).map fun i => loadByte mem (a + 8 + i)⟩

/-- The constructor `MessageData::MessageData()` run on the instance at address
`this`: it stores `this` in the discovery slot and reports the address. The result
is the memory and the log call. -/
def MessageData.MessageData (mem : Nat → Nat) (this : Nat) : (Nat → Nat) × List Event :=
  (storeWord mem TOOL_ACCESS_ADDRESS this,
    [.OSReport (some "[GToolkit] MessageData created at %p.\n") [.ptr this]])

/-- The machine state the hook code acts on: the general purpose registers
`r0..r31` and the memory. -/
structure Machine where
  gpr : Nat → Nat
  mem : Nat → Nat

/-- The PowerPC instructions that occur in `handleException`. -/
inductive Instr where
  | lwz (rD : Nat) (d : Nat) (rA : Nat)
  | lis (rD : Nat) (value : Nat)
  | ori (rA : Nat) (rS : Nat) (uimm : Nat)
  | addi (rD : Nat) (rA : Nat) (simm : Nat)
  | stw (rS : Nat) (d : Nat) (rA : Nat)
  | blr
deriving DecidableEq, Repr

/-- Sign extension of a 16-bit immediate to 32 bits. -/
def exts16 (v : Nat) : Nat :=
  if v % 2 ^ 16 < 2 ^ 15 then v % 2 ^ 16 else v % 2 ^ 16 + (2 ^ 32 - 2 ^ 16)

/-- The state with register `r` set to `v`. -/
def Machine.setGpr (s : Machine) (r v : Nat) : Machine :=
  { s with gpr := fun x => if x = r then v else s.gpr x }

/-- The base of an effective address: 0 when the register field is 0. -/
def Machine.base (s : Machine) (rA : Nat) : Nat :=
  if rA = 0 then 0 else s.gpr rA

/-- The effect of one instruction on registers and memory (`blr` leaves both). -/
def Instr.exec : Instr → Machine → Machine
  | .lwz rD d rA, s => s.setGpr rD (loadWord s.mem ((s.base rA + exts16 d) % 2 ^ 32))
  | .lis rD value, s => s.setGpr rD ((value % 2 ^ 16) * 2 ^ 16)
  | .ori rA rS uimm, s => s.setGpr rA (s.gpr rS ||| (uimm % 2 ^ 16))
  | .addi rD rA simm, s => s.setGpr rD ((s.base rA + exts16 simm) % 2 ^ 32)
  | .stw rS d rA, s =>
    { s with mem := storeWord s.mem ((s.base rA + exts16 d) % 2 ^ 32) (s.gpr rS) }
  | .blr, s => s

/-- Straight-line execution up to the first `blr`, which returns to the caller. -/
def run : List Instr → Machine → Machine
  | [], s => s
  | .blr :: _, s => s
  | i :: is, s => run is (i.exec s)

/-- The body of `handleException`. -/
def handleExceptionCode : List Instr :=
  [.lwz 28 8 3, .lis 6 0x8000, .ori 6 6 0x2FF4, .lwz 6 0 6, .addi 6 6 0x4, .stw 28 0 6, .blr]

/-- The function `handleException`, the target of `kmCall(0x8050F4FC, ...)`. -/
def handleException (s : Machine) : Machine :=
  run handleExceptionCode s

/-- The encoding of the D-form instruction `lwz rD, d(rA)`: primary opcode 32. -/
def encodeLwz (rD d rA : Nat) : Nat :=
  32 * 2 ^ 26 + rD * 2 ^ 21 + rA * 2 ^ 16 + d % 2 ^ 16

/-- An example memory: the mailbox constructed at `0x80400000` (so the discovery
slot holds that address), with the command `0x00000001` pending in `mToolMessage`,
and the word `0x12345678` at address `0x80500008`; every other byte is 0. -/
def hookMem : Nat → Nat :=
  storeWord (storeWord (MessageData.MessageData (fun _ => 0) 0x80400000).1 0x80400000 1)
    0x80500008 0x12345678

/-- An example machine state: `r3 = 0x80500000`, every other register 0, over the
memory `hookMem`. -/
def hookState : Machine :=
  ⟨fun r => if r = 3 then 0x80500000 else 0, hookMem⟩

/-! ## Bytes and words -/

theorem getD_take (d : List Nat) (n i : Nat) (h : i < n) : (d.take n).getD i 0 = d.getD i 0 := by
  simp [List.getD_eq_getElem?_getD, List.getElem?_take, h]

theorem readWord_take (d : List Nat) (n off : Nat) (h : off + 3 < n) :
    readWord (d.take n) off = readWord d off := by
  unfold readWord
  rw [getD_take d n off (by omega), getD_take d n (off + 1) (by omega),
    getD_take d n (off + 2) (by omega), getD_take d n (off + 3) h]

theorem ofData_take (d : List Nat) : TVec3f.ofData (d.take 12) = TVec3f.ofData d := by
  unfold TVec3f.ofData
  rw [readWord_take d 12 0 (by omega), readWord_take d 12 4 (by omega),
    readWord_take d 12 8 (by omega)]

theorem toS8_eq_neg_one (n : Nat) : toS8 n = -1 ↔ n % 256 = 255 := by
  unfold toS8
  split <;> omega

theorem toS8_byte (b : Nat) (h : b < 256) :
    toS8 b = if b < 128 then (b : Int) else (b : Int) - 256 := by
  unfold toS8
  rw [Nat.mod_eq_of_lt h]

/-! ## Decoding -/

theorem and_0xFF (m : Nat) : m &&& 0xFF = m % 256 :=
  Nat.and_pow_two_sub_one_eq_mod m 8

theorem shiftRight_8 (m : Nat) : m >>> 8 = m / 256 := by
  simp [Nat.shiftRight_eq_div_pow]

theorem shiftRight_16 (m : Nat) : m >>> 16 = m / 65536 := by
  simp [Nat.shiftRight_eq_div_pow]

theorem parseCommand_eq (g : Globals) :
    parseCommand g =
      ⟨g.sInstance, g.sInstance.mToolMessage % 256, g.sInstance.mToolMessage / 256⟩ := by
  simp [parseCommand, and_0xFF, shiftRight_8]

/-! ## The polling loop -/

/-- The only value with opcode `0xFE` and parameter `0` is `0x000000FE`. -/
theorem release_iff (v : Nat) : (v % 256 = 0xFE ∧ v / 256 = 0) ↔ v = 0xFE := by
  omega

theorem freezeLoop_cons (g : Globals) (v : Nat) (vs : List Nat) :
    freezeLoop g (v :: vs) =
      if v = 0xFE then (⟨{ g.sInstance with mToolMessage := 0xFE }, 0xFE, 0⟩, some vs)
      else freezeLoop ⟨{ g.sInstance with mToolMessage := v }, v % 256, v / 256⟩ vs := by
  by_cases hv : v = 0xFE
  · subst hv
    simp [freezeLoop, parseCommand_eq, Globals.observe]
  · have hr : ¬ (v % 256 = 0xFE ∧ v / 256 = 0) := fun h => hv ((release_iff v).1 h)
    simp only [freezeLoop, parseCommand_eq, Globals.observe]
    rw [if_neg hr, if_neg hv]

theorem freezeLoop_spin (vs : List Nat) (h : 0xFE ∉ vs) (g : Globals) :
    (freezeLoop g vs).2 = none := by
  induction vs generalizing g with
  | nil => rfl
  | cons v vs ih =>
    have hv : v ≠ 0xFE := fun e => h (by simp [e])
    have hvs : 0xFE ∉ vs := fun e => h (List.mem_cons_of_mem _ e)
    rw [freezeLoop_cons, if_neg hv]
    exact ih hvs _

theorem freezeLoop_release (pre rest : List Nat) (h : 0xFE ∉ pre) (g : Globals) :
    freezeLoop g (pre ++ 0xFE :: rest) =
      (⟨{ g.sInstance with mToolMessage := 0xFE }, 0xFE, 0⟩, some rest) := by
  induction pre generalizing g with
  | nil => simp [freezeLoop_cons]
  | cons v vs ih =>
    have hv : v ≠ 0xFE := fun e => h (by simp [e])
    have hvs : 0xFE ∉ vs := fun e => h (List.mem_cons_of_mem _ e)
    rw [List.cons_append, freezeLoop_cons, if_neg hv, ih hvs]

theorem freezeLoop_frame (vs : List Nat) (g : Globals) :
    (freezeLoop g vs).1.sInstance.mGameMessage = g.sInstance.mGameMessage ∧
    (freezeLoop g vs).1.sInstance.mData = g.sInstance.mData := by
  induction vs generalizing g with
  | nil => exact ⟨rfl, rfl⟩
  | cons v vs ih =>
    rw [freezeLoop_cons]
    split
    · exact ⟨rfl, rfl⟩
    · exact ih _

/-- A list that contains `a` splits at the first occurrence of `a`. -/
theorem split_first (a : Nat) (l : List Nat) (h : a ∈ l) :
    ∃ pre rest, l = pre ++ a :: rest ∧ a ∉ pre := by
  induction l with
  | nil => simp at h
  | cons v vs ih =>
    by_cases hv : v = a
    · exact ⟨[], vs, by simp [hv], by simp⟩
    · have hm : a ∈ vs := by
        rcases List.mem_cons.1 h with e | e
        · exact absurd e.symm hv
        · exact e
      obtain ⟨pre, rest, e, hn⟩ := ih hm
      refine ⟨v :: pre, rest, by simp [e], ?_⟩
      intro hc
      rcases List.mem_cons.1 hc with e2 | e2
      · exact hv e2.symm
      · exact hn e2

/-! ## The dispatcher, branch by branch -/

/-- Opcode `0xFE` with a non-zero parameter: the freeze log, then the polling loop. -/
theorem control_freeze (look : List Nat → Option (TVec3f × TVec3f)) (g : Globals)
    (polls : List Nat) (hop : g.sInstance.mToolMessage % 256 = 0xFE)
    (hpar : g.sInstance.mToolMessage / 256 ≠ 0) :
    control look g polls =
      match freezeLoop ⟨g.sInstance, 0xFE, g.sInstance.mToolMessage / 256⟩ polls with
      | (g1, some unread) => .returned g1.clear [freezeLog, unfreezeLog] unread
      | (g1, none) => .spinning g1 [freezeLog] := by
  simp [control, parseCommand_eq, hop, hpar, freezeLog, unfreezeLog]

theorem control_freeze_spin (look : List Nat → Option (TVec3f × TVec3f)) (g : Globals)
    (polls : List Nat) (hop : g.sInstance.mToolMessage % 256 = 0xFE)
    (hpar : g.sInstance.mToolMessage / 256 ≠ 0) (hn : 0xFE ∉ polls) :
    control look g polls =
      .spinning (freezeLoop ⟨g.sInstance, 0xFE, g.sInstance.mToolMessage / 256⟩ polls).1
        [freezeLog] := by
  rw [control_freeze look g polls hop hpar]
  have h2 := freezeLoop_spin polls hn ⟨g.sInstance, 0xFE, g.sInstance.mToolMessage / 256⟩
  generalize freezeLoop ⟨g.sInstance, 0xFE, g.sInstance.mToolMessage / 256⟩ polls = r at h2
  obtain ⟨g1, o⟩ := r
  simp only at h2
  subst h2
  rfl

theorem control_freeze_release (look : List Nat → Option (TVec3f × TVec3f)) (g : Globals)
    (pre rest : List Nat) (hop : g.sInstance.mToolMessage % 256 = 0xFE)
    (hpar : g.sInstance.mToolMessage / 256 ≠ 0) (hn : 0xFE ∉ pre) :
    control look g (pre ++ 0xFE :: rest) =
      .returned ⟨{ g.sInstance with mToolMessage := 0 }, 0xFE, 0⟩ [freezeLog, unfreezeLog]
        rest := by
  rw [control_freeze look g _ hop hpar, freezeLoop_release pre rest hn]
  rfl

/-- Opcode 3: the two logs, the three scene calls and, unless the scenario byte is
`0xFF`, the stage change. -/
theorem control_stage (look : List Nat → Option (TVec3f × TVec3f)) (g : Globals)
    (polls : List Nat) (hop : g.sInstance.mToolMessage % 256 = 3) :
    control look g polls =
      .returned ⟨{ g.sInstance with mToolMessage := 0 }, 3, g.sInstance.mToolMessage / 256⟩
        ([.OSReport (some "[GToolkit] Recived stage message.\n") [],
          .OSReport (some "[GToolkit] %d %d\n")
            [.int (toS8 (g.sInstance.mToolMessage / 256 % 256)),
              .int (toS8 (g.sInstance.mToolMessage / 65536 % 256))],
          .stopStageBGM 60,
          .closeSystemWipeCircleWithCaptureScreen 60,
          .requestChangeScenarioSelect g.sInstance.mData] ++
          if g.sInstance.mToolMessage / 256 % 256 = 0xFF then []
          else [.requestChangeStage g.sInstance.mData
            (toS8 (g.sInstance.mToolMessage / 256 % 256))
            (toS8 (g.sInstance.mToolMessage / 65536 % 256)) ⟨0, 0⟩]) polls := by
  by_cases hs : g.sInstance.mToolMessage / 256 % 256 = 0xFF
  · have h1 : toS8 255 = -1 := by decide
    simp [control, parseCommand_eq, hop, Globals.clear, and_0xFF, shiftRight_8, shiftRight_16,
      h1, hs]
  · have h1 : toS8 (g.sInstance.mToolMessage / 256 % 256) ≠ -1 :=
      fun h => hs (by have := (toS8_eq_neg_one _).1 h; omega)
    simp [control, parseCommand_eq, hop, Globals.clear, and_0xFF, shiftRight_8, shiftRight_16,
      h1, hs]

theorem control_idle (look : List Nat → Option (TVec3f × TVec3f)) (g : Globals)
    (polls : List Nat) (hop : g.sInstance.mToolMessage % 256 = 0) :
    control look g polls =
      .returned ⟨g.sInstance, 0, g.sInstance.mToolMessage / 256⟩ [] polls := by
  simp [control, parseCommand_eq, hop]

theorem control_init (look : List Nat → Option (TVec3f × TVec3f)) (g : Globals)
    (polls : List Nat) (hop : g.sInstance.mToolMessage % 256 = 1) :
    control look g polls =
      .returned ⟨{ g.sInstance with mToolMessage := 0 }, 1, g.sInstance.mToolMessage / 256⟩
        [.OSReport (some "[GToolkit] Initialized Tool.\n") []] polls := by
  simp [control, parseCommand_eq, hop, Globals.clear]

theorem control_object (look : List Nat → Option (TVec3f × TVec3f)) (g : Globals)
    (polls : List Nat) (hop : g.sInstance.mToolMessage % 256 = 2) :
    control look g polls =
      .returned ⟨{ g.sInstance with mToolMessage := 0 }, 2, g.sInstance.mToolMessage / 256⟩
        [.OSReport (some "[GToolkit] Object message not supported yet.\n") []] polls := by
  simp [control, parseCommand_eq, hop, Globals.clear]

theorem control_warp (look : List Nat → Option (TVec3f × TVec3f)) (g : Globals)
    (polls : List Nat) (hop : g.sInstance.mToolMessage % 256 = 4) :
    control look g polls =
      .returned ⟨{ g.sInstance with mToolMessage := 0 }, 4, g.sInstance.mToolMessage / 256⟩
        (.OSReport (some "[GToolkit] Recived warp message.\n") [] ::
          if g.sInstance.mToolMessage / 256 = 0 then
            [.setPlayerPos (TVec3f.ofData g.sInstance.mData)]
          else
            match look g.sInstance.mData with
            | some (position, _) =>
              [.tryFindNamePos g.sInstance.mData, .setPlayerPos position]
            | none =>
              [.tryFindNamePos g.sInstance.mData,
                .OSReport (some "[GToolkit] GeneralPos %s was not found.\n")
                  [.str g.sInstance.mData]]) polls := by
  by_cases hp : g.sInstance.mToolMessage / 256 = 0
  · simp [control, parseCommand_eq, hop, hp, Globals.clear]
  · cases h : look g.sInstance.mData with
    | none => simp [control, parseCommand_eq, hop, hp, Globals.clear, h]
    | some pr => simp [control, parseCommand_eq, hop, hp, Globals.clear, h]

theorem control_release_idle (look : List Nat → Option (TVec3f × TVec3f)) (g : Globals)
    (polls : List Nat) (hop : g.sInstance.mToolMessage % 256 = 0xFE)
    (hpar : g.sInstance.mToolMessage / 256 = 0) :
    control look g polls =
      .returned ⟨{ g.sInstance with mToolMessage := 0 }, 0xFE, 0⟩ [] polls := by
  simp [control, parseCommand_eq, hop, hpar, Globals.clear]

theorem control_null_report (look : List Nat → Option (TVec3f × TVec3f)) (g : Globals)
    (polls : List Nat) (hop : g.sInstance.mToolMessage % 256 = 0xFF) :
    control look g polls =
      .returned ⟨{ g.sInstance with mToolMessage := 0 }, 0xFF, g.sInstance.mToolMessage / 256⟩
        [.OSReport none []] polls := by
  simp [control, parseCommand_eq, hop, Globals.clear]

theorem control_unknown (look : List Nat → Option (TVec3f × TVec3f)) (g : Globals)
    (polls : List Nat) (hlo : 5 ≤ g.sInstance.mToolMessage % 256)
    (hhi : g.sInstance.mToolMessage % 256 ≤ 0xFD) :
    control look g polls =
      .returned ⟨{ g.sInstance with mToolMessage := 0 }, g.sInstance.mToolMessage % 256,
        g.sInstance.mToolMessage / 256⟩ [] polls := by
  have h0 : g.sInstance.mToolMessage % 256 ≠ 0 := by omega
  have h1 : g.sInstance.mToolMessage % 256 ≠ 1 := by omega
  have h2 : g.sInstance.mToolMessage % 256 ≠ 2 := by omega
  have h3 : g.sInstance.mToolMessage % 256 ≠ 3 := by omega
  have h4 : g.sInstance.mToolMessage % 256 ≠ 4 := by omega
  have h5 : g.sInstance.mToolMessage % 256 ≠ 0xFE := by omega
  have h6 : g.sInstance.mToolMessage % 256 ≠ 0xFF := by omega
  simp [control, parseCommand_eq, Globals.clear, h0, h1, h2, h3, h4, h5, h6]

theorem freezeLoop_congr (g1 g2 : Globals)
    (hg : g1.sInstance.mGameMessage = g2.sInstance.mGameMessage)
    (hd : g1.sInstance.mData = g2.sInstance.mData) (v : Nat) (vs : List Nat) :
    freezeLoop g1 (v :: vs) = freezeLoop g2 (v :: vs) := by
  simp only [freezeLoop_cons, hg, hd]

/-- The eight ways the opcode byte can fall. -/
theorem opcode_cases (m : Nat) :
    m % 256 = 0 ∨ m % 256 = 1 ∨ m % 256 = 2 ∨ m % 256 = 3 ∨ m % 256 = 4 ∨
      (m % 256 = 0xFE ∧ m / 256 = 0) ∨ (m % 256 = 0xFE ∧ m / 256 ≠ 0) ∨ m % 256 = 0xFF ∨
      (5 ≤ m % 256 ∧ m % 256 ≤ 0xFD) := by
  omega

theorem freezeLoop_last (vs : List Nat) (g : Globals) (h : (freezeLoop g vs).2 = none) :
    (freezeLoop g vs).1.sInstance.mToolMessage = vs.getLastD g.sInstance.mToolMessage := by
  induction vs generalizing g with
  | nil => rfl
  | cons v vs ih =>
    rw [freezeLoop_cons] at h ⊢
    by_cases hv : v = 0xFE
    · rw [if_pos hv] at h
      simp at h
    · rw [if_neg hv] at h ⊢
      rw [ih _ h]
      cases vs <;> rfl

theorem freezeLoop_game (gm1 gm2 : Nat) (d vs : List Nat) (m h p : Nat) :
    (freezeLoop ⟨⟨m, gm1, d⟩, h, p⟩ vs).2 = (freezeLoop ⟨⟨m, gm2, d⟩, h, p⟩ vs).2 ∧
    (freezeLoop ⟨⟨m, gm1, d⟩, h, p⟩ vs).1.sInstance.mToolMessage =
      (freezeLoop ⟨⟨m, gm2, d⟩, h, p⟩ vs).1.sInstance.mToolMessage ∧
    (freezeLoop ⟨⟨m, gm1, d⟩, h, p⟩ vs).1.handle = (freezeLoop ⟨⟨m, gm2, d⟩, h, p⟩ vs).1.handle ∧
    (freezeLoop ⟨⟨m, gm1, d⟩, h, p⟩ vs).1.param = (freezeLoop ⟨⟨m, gm2, d⟩, h, p⟩ vs).1.param := by
  induction vs generalizing m h p with
  | nil => exact ⟨rfl, rfl, rfl, rfl⟩
  | cons v vs ih =>
    rw [freezeLoop_cons, freezeLoop_cons]
    by_cases hv : v = 0xFE
    · rw [if_pos hv, if_pos hv]
      exact ⟨rfl, rfl, rfl, rfl⟩
    · rw [if_neg hv, if_neg hv]
      exact ih v (v % 256) (v / 256)

theorem control_scratch (look : List Nat → Option (TVec3f × TVec3f)) (mb : MessageData)
    (h1 p1 h2 p2 : Nat) (polls : List Nat) :
    control look ⟨mb, h1, p1⟩ polls = control look ⟨mb, h2, p2⟩ polls := rfl

/-- What `control` leaves in the mailbox. -/
theorem control_frame (look : List Nat → Option (TVec3f × TVec3f)) (g : Globals)
    (polls : List Nat) :
    (control look g polls).globals.sInstance.mGameMessage = g.sInstance.mGameMessage ∧
    (control look g polls).globals.sInstance.mData = g.sInstance.mData ∧
    ((control look g polls).isReturned = true →
      (control look g polls).globals.sInstance.mToolMessage = 0 ∨
      (g.sInstance.mToolMessage % 256 = 0 ∧
        (control look g polls).globals.sInstance.mToolMessage = g.sInstance.mToolMessage)) ∧
    ((control look g polls).isReturned = false →
      (control look g polls).globals.sInstance.mToolMessage =
        polls.getLastD g.sInstance.mToolMessage) := by
  rcases opcode_cases g.sInstance.mToolMessage with h | h | h | h | h | h | h | h | h
  · rw [control_idle look g polls h]
    exact ⟨rfl, rfl, fun _ => Or.inr ⟨h, rfl⟩, fun hr => by simp [Outcome.isReturned] at hr⟩
  · rw [control_init look g polls h]
    exact ⟨rfl, rfl, fun _ => Or.inl rfl, fun hr => by simp [Outcome.isReturned] at hr⟩
  · rw [control_object look g polls h]
    exact ⟨rfl, rfl, fun _ => Or.inl rfl, fun hr => by simp [Outcome.isReturned] at hr⟩
  · rw [control_stage look g polls h]
    exact ⟨rfl, rfl, fun _ => Or.inl rfl, fun hr => by simp [Outcome.isReturned] at hr⟩
  · rw [control_warp look g polls h]
    exact ⟨rfl, rfl, fun _ => Or.inl rfl, fun hr => by simp [Outcome.isReturned] at hr⟩
  · rw [control_release_idle look g polls h.1 h.2]
    exact ⟨rfl, rfl, fun _ => Or.inl rfl, fun hr => by simp [Outcome.isReturned] at hr⟩
  · rw [control_freeze look g polls h.1 h.2]
    have hf := freezeLoop_frame polls ⟨g.sInstance, 0xFE, g.sInstance.mToolMessage / 256⟩
    have hl := freezeLoop_last polls ⟨g.sInstance, 0xFE, g.sInstance.mToolMessage / 256⟩
    generalize freezeLoop ⟨g.sInstance, 0xFE, g.sInstance.mToolMessage / 256⟩ polls = r at hf hl
    obtain ⟨g1, o⟩ := r
    cases o with
    | none =>
      exact ⟨hf.1, hf.2, fun hr => by simp [Outcome.isReturned] at hr, fun _ => hl rfl⟩
    | some u =>
      exact ⟨hf.1, hf.2, fun _ => Or.inl rfl, fun hr => by simp [Outcome.isReturned] at hr⟩
  · rw [control_null_report look g polls h]
    exact ⟨rfl, rfl, fun _ => Or.inl rfl, fun hr => by simp [Outcome.isReturned] at hr⟩
  · rw [control_unknown look g polls h.1 h.2]
    exact ⟨rfl, rfl, fun _ => Or.inl rfl, fun hr => by simp [Outcome.isReturned] at hr⟩

/-! ## Memory and the hook code -/

theorem loadByte_lt (mem : Nat → Nat) (x : Nat) : loadByte mem x < 256 :=
  Nat.mod_lt _ (by decide)

theorem loadWord_lt (mem : Nat → Nat) (x : Nat) : loadWord mem x < 2 ^ 32 := by
  have h0 := loadByte_lt mem x
  have h1 := loadByte_lt mem (x + 1)
  have h2 := loadByte_lt mem (x + 2)
  have h3 := loadByte_lt mem (x + 3)
  unfold loadWord
  omega

theorem loadByte_mod (mem : Nat → Nat) (x i : Nat) :
    loadByte mem (x % 2 ^ 32 + i) = loadByte mem (x + i) := by
  unfold loadByte
  rw [Nat.mod_add_mod]

theorem loadWord_mod (mem : Nat → Nat) (x : Nat) :
    loadWord mem (x % 2 ^ 32) = loadWord mem x := by
  unfold loadWord
  rw [loadByte_mod mem x 1, loadByte_mod mem x 2, loadByte_mod mem x 3]
  have := loadByte_mod mem x 0
  simpa using this

theorem loadByte_storeByte (mem : Nat → Nat) (x v y : Nat) :
    loadByte (storeByte mem x v) y =
      if y % 2 ^ 32 = x % 2 ^ 32 then v % 256 else loadByte mem y := by
  unfold loadByte storeByte
  split <;> simp

/-- A byte read after a word store. -/
theorem loadByte_storeWord (mem : Nat → Nat) (x v y : Nat) :
    loadByte (storeWord mem x v) y =
      if y % 2 ^ 32 = (x + 3) % 2 ^ 32 then v % 256
      else if y % 2 ^ 32 = (x + 2) % 2 ^ 32 then v / 2 ^ 8 % 256
      else if y % 2 ^ 32 = (x + 1) % 2 ^ 32 then v / 2 ^ 16 % 256
      else if y % 2 ^ 32 = x % 2 ^ 32 then v / 2 ^ 24 % 256
      else loadByte mem y := by
  unfold storeWord
  simp only [loadByte_storeByte]

/-- A byte away from the four bytes of a word store is not changed. -/
theorem loadByte_storeWord_off (mem : Nat → Nat) (x v y : Nat)
    (h : ∀ i, i < 4 → y % 2 ^ 32 ≠ (x + i) % 2 ^ 32) :
    loadByte (storeWord mem x v) y = loadByte mem y := by
  rw [loadByte_storeWord, if_neg (h 3 (by decide)), if_neg (h 2 (by decide)),
    if_neg (h 1 (by decide)), if_neg (by simpa using h 0 (by decide))]

/-- A word store followed by a load at the same address gives the low 32 bits. -/
theorem loadWord_storeWord (mem : Nat → Nat) (x v : Nat) :
    loadWord (storeWord mem x v) x = v % 2 ^ 32 := by
  have e0 : ¬ x % 2 ^ 32 = (x + 3) % 2 ^ 32 := by omega
  have e1 : ¬ x % 2 ^ 32 = (x + 2) % 2 ^ 32 := by omega
  have e2 : ¬ x % 2 ^ 32 = (x + 1) % 2 ^ 32 := by omega
  have e3 : ¬ (x + 1) % 2 ^ 32 = (x + 3) % 2 ^ 32 := by omega
  have e4 : ¬ (x + 1) % 2 ^ 32 = (x + 2) % 2 ^ 32 := by omega
  have e5 : ¬ (x + 2) % 2 ^ 32 = (x + 3) % 2 ^ 32 := by omega
  unfold loadWord
  rw [loadByte_storeWord, loadByte_storeWord, loadByte_storeWord, loadByte_storeWord,
    if_neg e0, if_neg e1, if_neg e2, if_pos rfl, if_neg e3, if_neg e4, if_pos rfl,
    if_neg e5, if_pos rfl, if_pos rfl]
  omega

/-- A word four or more bytes away from a word store is not changed. -/
theorem loadWord_storeWord_off (mem : Nat → Nat) (x v y : Nat)
    (h : ∀ i j, i < 4 → j < 4 → (y + j) % 2 ^ 32 ≠ (x + i) % 2 ^ 32) :
    loadWord (storeWord mem x v) y = loadWord mem y := by
  unfold loadWord
  rw [loadByte_storeWord_off mem x v y (fun i hi => by simpa using h i 0 hi (by decide)),
    loadByte_storeWord_off mem x v (y + 1) (fun i hi => h i 1 hi (by decide)),
    loadByte_storeWord_off mem x v (y + 2) (fun i hi => h i 2 hi (by decide)),
    loadByte_storeWord_off mem x v (y + 3) (fun i hi => h i 3 hi (by decide))]

theorem storeWord_mod (mem : Nat → Nat) (x v : Nat) :
    storeWord mem (x % 2 ^ 32) v = storeWord mem x v := by
  unfold storeWord storeByte
  simp only [Nat.mod_add_mod, Nat.mod_mod]

/-- The hook code, executed: `r28` and `r6` are set and one word is stored. -/
theorem handleException_eq (s : Machine) :
    handleException s =
      ⟨fun r => if r = 6 then (loadWord s.mem TOOL_ACCESS_ADDRESS + 4) % 2 ^ 32
          else if r = 28 then loadWord s.mem (s.gpr 3 + 8) else s.gpr r,
        storeWord s.mem (loadWord s.mem TOOL_ACCESS_ADDRESS + 4) (loadWord s.mem (s.gpr 3 + 8))⟩ := by
  have hslot : (2147483648 ||| 12276 : Nat) = TOOL_ACCESS_ADDRESS := by decide
  unfold handleException handleExceptionCode
  have hl : ∀ (mem : Nat → Nat) (x : Nat), loadWord mem (x % 4294967296) = loadWord mem x :=
    loadWord_mod
  have hs : ∀ (mem : Nat → Nat) (x v : Nat),
      storeWord mem (x % 4294967296) v = storeWord mem x v := storeWord_mod
  simp only [run, Instr.exec, Machine.setGpr, Machine.base, exts16]
  simp [hslot, hl, hs]
  funext r
  by_cases h6 : r = 6
  · simp [h6]
  · simp [h6]

/-- The mailbox the discovery slot points to, after the hook code has run: only
`mGameMessage` has changed, to the word the original instruction loaded. -/
theorem hook_mailbox (s : Machine) (a : Nat) (hslot : loadWord s.mem TOOL_ACCESS_ADDRESS = a) :
    MessageData.load (handleException s).mem a =
      ⟨(MessageData.load s.mem a).mToolMessage, loadWord s.mem (s.gpr 3 + 8),
        (MessageData.load s.mem a).mData⟩ := by
  rw [handleException_eq, hslot]
  simp only [MessageData.load]
  have h1 : loadWord (storeWord s.mem (a + 4) (loadWord s.mem (s.gpr 3 + 8))) a =
      loadWord s.mem a :=
    loadWord_storeWord_off _ _ _ _ (fun i j hi hj => by omega)
  have h2 : loadWord (storeWord s.mem (a + 4) (loadWord s.mem (s.gpr 3 + 8))) (a + 4) =
      loadWord s.mem (s.gpr 3 + 8) := by
    rw [loadWord_storeWord, Nat.mod_eq_of_lt (loadWord_lt _ _)]
  have h3 : (List.range 64).map
      (fun i => loadByte (storeWord s.mem (a + 4) (loadWord s.mem (s.gpr 3 + 8))) (a + 8 + i)) =
      (List.range 64).map (fun i => loadByte s.mem (a + 8 + i)) := by
    apply List.map_congr_left
    intro k hk
    have hk64 : k < 64 := List.mem_range.1 hk
    exact loadByte_storeWord_off _ _ _ _ (fun i hi => by omega)
  rw [h1, h2, h3]

/-- The original instruction alone: `r28` receives the word at `r3 + 8`, nothing
else changes. -/
theorem lwz_original (s : Machine) :
    (Instr.lwz 28 8 3).exec s =
      ⟨fun r => if r = 28 then loadWord s.mem (s.gpr 3 + 8) else s.gpr r, s.mem⟩ := by
  have hl : ∀ (mem : Nat → Nat) (x : Nat), loadWord mem (x % 4294967296) = loadWord mem x :=
    loadWord_mod
  simp [Instr.exec, Machine.setGpr, Machine.base, exts16, hl]

/-! ## The claims -/

/-- C1. Completion signal: when the opcode (the low byte of `mToolMessage`) is not
zero, every return of `control` leaves `mToolMessage` equal to 0, whatever the
parameter, the data, the lookup and the observed values; and `control` does return
unless it is frozen (opcode `0xFE`, non-zero parameter) and the release value
`0x000000FE` is never observed. -/
theorem control_completion_signal (look : List Nat → Option (TVec3f × TVec3f)) (g : Globals)
    (polls : List Nat) (hop : g.sInstance.mToolMessage % 256 ≠ 0) :
    (∀ g1 t u, control look g polls = .returned g1 t u → g1.sInstance.mToolMessage = 0) ∧
    ((g.sInstance.mToolMessage % 256 ≠ 0xFE ∨ g.sInstance.mToolMessage / 256 = 0 ∨
        0xFE ∈ polls) → (control look g polls).isReturned = true) := by
  constructor
  · intro g1 t u h
    unfold control at h
    simp only [parseCommand_eq, if_neg hop] at h
    split_ifs at h
    all_goals first
      | (cases h; rfl)
      | (split at h <;> first | (cases h; rfl) | cases h)
  · intro hr
    by_cases hfe : g.sInstance.mToolMessage % 256 = 0xFE ∧ g.sInstance.mToolMessage / 256 ≠ 0
    · have hm : 0xFE ∈ polls := by
        rcases hr with h | h | h
        · exact absurd hfe.1 h
        · exact absurd h hfe.2
        · exact h
      obtain ⟨pre, rest, e, hn⟩ := split_first 0xFE polls hm
      rw [e, control_freeze_release look g pre rest hfe.1 hfe.2 hn]
      rfl
    · unfold control
      simp only [parseCommand_eq, if_neg hop]
      split_ifs with h1 h2 h3 h4 h5 h6 h7 h8 h9
      all_goals first
        | rfl
        | (split <;> rfl)
        | exact absurd ⟨h7, h8⟩ hfe

theorem control_completion_signal_witness :
    (0x1FE % 256 ≠ 0) ∧
    (∀ g1 t u, control (fun _ => none) ⟨⟨0x1FE, 0, List.replicate 64 0⟩, 0, 0⟩ [0x1FE, 0xFE]
        = .returned g1 t u → g1.sInstance.mToolMessage = 0) ∧
    ((0x1FE % 256 ≠ 0xFE ∨ 0x1FE / 256 = 0 ∨ 0xFE ∈ [0x1FE, 0xFE]) →
      (control (fun _ => none) ⟨⟨0x1FE, 0, List.replicate 64 0⟩, 0, 0⟩
        [0x1FE, 0xFE]).isReturned = true) :=
  ⟨by decide,
    control_completion_signal (fun _ => none) ⟨⟨0x1FE, 0, List.replicate 64 0⟩, 0, 0⟩
      [0x1FE, 0xFE] (by decide)⟩

/-- C2, as stated, fails: with `mToolMessage = 0x00000100` (opcode 0, parameter 1)
`control` returns at once and `mToolMessage` is still `0x100`, not 0. -/
theorem idle_keeps_upper_bytes :
    0x00000100 % 256 = 0 ∧
    control (fun _ => none) ⟨⟨0x00000100, 0, List.replicate 64 0⟩, 0, 0⟩ [] =
      .returned ⟨⟨0x00000100, 0, List.replicate 64 0⟩, 0, 1⟩ [] [] ∧
    (control (fun _ => none)
      ⟨⟨0x00000100, 0, List.replicate 64 0⟩, 0, 0⟩ []).globals.sInstance.mToolMessage ≠ 0 := by
  decide

/-- C2, amended. Opcode 0x00: when the low byte of `mToolMessage` is 0, whatever the
upper three bytes, the data, the lookup and the observed values, `control` returns
after one decode with no log and no game action and with the whole mailbox as it
was: `mData` and `mGameMessage` unchanged and `mToolMessage` not written, so that it
is 0 on return exactly when it was 0 on entry. -/
theorem control_idle_untouched (look : List Nat → Option (TVec3f × TVec3f)) (g : Globals)
    (polls : List Nat) (hop : g.sInstance.mToolMessage % 256 = 0) :
    control look g polls =
      .returned ⟨g.sInstance, 0, g.sInstance.mToolMessage / 256⟩ [] polls ∧
    ((control look g polls).globals.sInstance.mToolMessage = 0 ↔
      g.sInstance.mToolMessage = 0) := by
  rw [control_idle look g polls hop]
  exact ⟨rfl, Iff.rfl⟩

theorem control_idle_untouched_witness :
    0x00000100 % 256 = 0 ∧
    (control (fun _ => none) ⟨⟨0x00000100, 7, List.replicate 64 1⟩, 3, 9⟩ [5] =
      .returned ⟨⟨0x00000100, 7, List.replicate 64 1⟩, 0, 0x00000100 / 256⟩ [] [5] ∧
    ((control (fun _ => none)
        ⟨⟨0x00000100, 7, List.replicate 64 1⟩, 3, 9⟩ [5]).globals.sInstance.mToolMessage = 0 ↔
      0x00000100 = 0)) :=
  ⟨by decide,
    control_idle_untouched (fun _ => none) ⟨⟨0x00000100, 7, List.replicate 64 1⟩, 3, 9⟩ [5]
      (by decide)⟩

/-- C3. Freeze state machine: when `control` decodes opcode `0xFE` with a non-zero
parameter, then (1) for every finite sequence of observed values that does not
contain `0x000000FE`, `control` is still in the loop after reading the sequence and
its only event is the freeze log, so no game action was invoked; (2) at the first
observed `0x000000FE` the loop is left, the unfreeze log is emitted, `mToolMessage`
is set to 0 and the later values are not read; (3) if the mailbox is never rewritten
(every observed value is the original one), `control` has not returned after any
number of polls. -/
theorem freeze_state_machine (look : List Nat → Option (TVec3f × TVec3f)) (g : Globals)
    (hop : g.sInstance.mToolMessage % 256 = 0xFE) (hpar : g.sInstance.mToolMessage / 256 ≠ 0) :
    (∀ vs, 0xFE ∉ vs →
      (control look g vs).isReturned = false ∧ (control look g vs).trace = [freezeLog] ∧
      ∀ e ∈ (control look g vs).trace, e.isGameAction = false) ∧
    (∀ pre rest, 0xFE ∉ pre →
      control look g (pre ++ 0xFE :: rest) =
        .returned ⟨{ g.sInstance with mToolMessage := 0 }, 0xFE, 0⟩ [freezeLog, unfreezeLog]
          rest) ∧
    (∀ n, (control look g (List.replicate n g.sInstance.mToolMessage)).isReturned = false) := by
  have hspin : ∀ vs, 0xFE ∉ vs →
      (control look g vs).isReturned = false ∧ (control look g vs).trace = [freezeLog] ∧
      ∀ e ∈ (control look g vs).trace, e.isGameAction = false := by
    intro vs hn
    rw [control_freeze_spin look g vs hop hpar hn]
    refine ⟨rfl, rfl, ?_⟩
    intro e he
    simp only [Outcome.trace, List.mem_singleton] at he
    subst he
    rfl
  refine ⟨hspin, fun pre rest hn => control_freeze_release look g pre rest hop hpar hn, ?_⟩
  intro n
  refine (hspin _ ?_).1
  intro hm
  have := List.eq_of_mem_replicate hm
  omega

theorem freeze_state_machine_witness :
    (0x000001FE % 256 = 0xFE ∧ 0x000001FE / 256 ≠ 0) ∧
    ((∀ vs, 0xFE ∉ vs →
      (control (fun _ => none) ⟨⟨0x000001FE, 0, List.replicate 64 0⟩, 0, 0⟩ vs).isReturned
        = false ∧
      (control (fun _ => none) ⟨⟨0x000001FE, 0, List.replicate 64 0⟩, 0, 0⟩ vs).trace
        = [freezeLog] ∧
      ∀ e ∈ (control (fun _ => none) ⟨⟨0x000001FE, 0, List.replicate 64 0⟩, 0, 0⟩ vs).trace,
        e.isGameAction = false) ∧
    (∀ pre rest, 0xFE ∉ pre →
      control (fun _ => none) ⟨⟨0x000001FE, 0, List.replicate 64 0⟩, 0, 0⟩
          (pre ++ 0xFE :: rest) =
        .returned ⟨⟨0, 0, List.replicate 64 0⟩, 0xFE, 0⟩ [freezeLog, unfreezeLog] rest) ∧
    (∀ n, (control (fun _ => none) ⟨⟨0x000001FE, 0, List.replicate 64 0⟩, 0, 0⟩
      (List.replicate n 0x000001FE)).isReturned = false)) :=
  ⟨by decide,
    freeze_state_machine (fun _ => none) ⟨⟨0x000001FE, 0, List.replicate 64 0⟩, 0, 0⟩
      (by decide) (by decide)⟩

/-- C4. Absolute warp: with opcode 0x04 and parameter 0, for every data buffer,
`control` logs the warp message, calls `setPlayerPos` exactly once, with the vector
made of the three 32-bit words in the first 12 bytes of `mData`, makes no name
lookup (the result does not depend on the lookup), and then sets `mToolMessage`
to 0. -/
theorem absolute_warp (look : List Nat → Option (TVec3f × TVec3f)) (g : Globals)
    (polls : List Nat) (hop : g.sInstance.mToolMessage % 256 = 4)
    (hpar : g.sInstance.mToolMessage / 256 = 0) :
    control look g polls =
      .returned ⟨{ g.sInstance with mToolMessage := 0 }, 4, 0⟩
        [.OSReport (some "[GToolkit] Recived warp message.\n") [],
          .setPlayerPos ⟨readWord g.sInstance.mData 0, readWord g.sInstance.mData 4,
            readWord g.sInstance.mData 8⟩] polls ∧
    TVec3f.ofData g.sInstance.mData = TVec3f.ofData (g.sInstance.mData.take 12) := by
  refine ⟨?_, (ofData_take _).symm⟩
  rw [control_warp look g polls hop, if_pos hpar, hpar]
  rfl

theorem absolute_warp_witness :
    (0x00000004 % 256 = 4 ∧ 0x00000004 / 256 = 0) ∧
    (control (fun _ => some (⟨1, 2, 3⟩, ⟨4, 5, 6⟩))
        ⟨⟨0x00000004, 0, [0x3F, 0x80, 0, 0, 0x40, 0, 0, 0, 0xC0, 0x40, 0, 0, 9, 9]⟩, 0, 0⟩ [] =
      .returned ⟨⟨0, 0, [0x3F, 0x80, 0, 0, 0x40, 0, 0, 0, 0xC0, 0x40, 0, 0, 9, 9]⟩, 4, 0⟩
        [.OSReport (some "[GToolkit] Recived warp message.\n") [],
          .setPlayerPos ⟨0x3F800000, 0x40000000, 0xC0400000⟩] [] ∧
    TVec3f.ofData [0x3F, 0x80, 0, 0, 0x40, 0, 0, 0, 0xC0, 0x40, 0, 0, 9, 9] =
      TVec3f.ofData ([0x3F, 0x80, 0, 0, 0x40, 0, 0, 0, 0xC0, 0x40, 0, 0, 9, 9].take 12)) :=
  ⟨by decide,
    absolute_warp (fun _ => some (⟨1, 2, 3⟩, ⟨4, 5, 6⟩))
      ⟨⟨0x00000004, 0, [0x3F, 0x80, 0, 0, 0x40, 0, 0, 0, 0xC0, 0x40, 0, 0, 9, 9]⟩, 0, 0⟩ []
      (by decide) (by decide)⟩

/-- C5. Named warp: with opcode 0x04 and a non-zero parameter, for every data
buffer, `control` calls the name lookup once, on `mData`. When the lookup succeeds
`setPlayerPos` is called exactly once, with the position found (the rotation is
dropped); when it fails `setPlayerPos` is not called and the not-found message,
with `mData` as its argument, is logged. So `setPlayerPos` is invoked if and only if
the lookup succeeds. In both cases `mToolMessage` is 0 afterwards. -/
theorem named_warp (look : List Nat → Option (TVec3f × TVec3f)) (g : Globals)
    (polls : List Nat) (hop : g.sInstance.mToolMessage % 256 = 4)
    (hpar : g.sInstance.mToolMessage / 256 ≠ 0) :
    (∀ pos rot, look g.sInstance.mData = some (pos, rot) →
      control look g polls =
        .returned ⟨{ g.sInstance with mToolMessage := 0 }, 4, g.sInstance.mToolMessage / 256⟩
          [.OSReport (some "[GToolkit] Recived warp message.\n") [],
            .tryFindNamePos g.sInstance.mData, .setPlayerPos pos] polls) ∧
    (look g.sInstance.mData = none →
      control look g polls =
        .returned ⟨{ g.sInstance with mToolMessage := 0 }, 4, g.sInstance.mToolMessage / 256⟩
          [.OSReport (some "[GToolkit] Recived warp message.\n") [],
            .tryFindNamePos g.sInstance.mData,
            .OSReport (some "[GToolkit] GeneralPos %s was not found.\n")
              [.str g.sInstance.mData]] polls) ∧
    (control look g polls).trace.countP Event.isLookup = 1 ∧
    ((control look g polls).trace.any Event.isSetPlayerPos = true ↔
      (look g.sInstance.mData).isSome = true) ∧
    (control look g polls).trace.countP Event.isSetPlayerPos ≤ 1 ∧
    (control look g polls).globals.sInstance.mToolMessage = 0 := by
  have hs : ∀ pos rot, look g.sInstance.mData = some (pos, rot) →
      control look g polls =
        .returned ⟨{ g.sInstance with mToolMessage := 0 }, 4, g.sInstance.mToolMessage / 256⟩
          [.OSReport (some "[GToolkit] Recived warp message.\n") [],
            .tryFindNamePos g.sInstance.mData, .setPlayerPos pos] polls := by
    intro pos rot h
    rw [control_warp look g polls hop, if_neg hpar, h]
  have hf : look g.sInstance.mData = none →
      control look g polls =
        .returned ⟨{ g.sInstance with mToolMessage := 0 }, 4, g.sInstance.mToolMessage / 256⟩
          [.OSReport (some "[GToolkit] Recived warp message.\n") [],
            .tryFindNamePos g.sInstance.mData,
            .OSReport (some "[GToolkit] GeneralPos %s was not found.\n")
              [.str g.sInstance.mData]] polls := by
    intro h
    rw [control_warp look g polls hop, if_neg hpar, h]
  refine ⟨hs, hf, ?_⟩
  cases h : look g.sInstance.mData with
  | none =>
    rw [hf h]
    simp [Outcome.trace, Outcome.globals, List.countP_cons, Event.isLookup,
      Event.isSetPlayerPos]
  | some pr =>
    obtain ⟨pos, rot⟩ := pr
    rw [hs pos rot h]
    simp [Outcome.trace, Outcome.globals, List.countP_cons, Event.isLookup,
      Event.isSetPlayerPos]

theorem named_warp_witness :
    (0x00000104 % 256 = 4 ∧ 0x00000104 / 256 ≠ 0) ∧
    control (fun d => if d = cstr "Start" then some (⟨1, 2, 3⟩, ⟨4, 5, 6⟩) else none)
        ⟨⟨0x00000104, 0, cstr "Start"⟩, 0, 0⟩ [] =
      .returned ⟨⟨0, 0, cstr "Start"⟩, 4, 1⟩
        [.OSReport (some "[GToolkit] Recived warp message.\n") [],
          .tryFindNamePos (cstr "Start"), .setPlayerPos ⟨1, 2, 3⟩] [] ∧
    control (fun d => if d = cstr "Start" then some (⟨1, 2, 3⟩, ⟨4, 5, 6⟩) else none)
        ⟨⟨0x00000104, 0, cstr "Nowhere"⟩, 0, 0⟩ [] =
      .returned ⟨⟨0, 0, cstr "Nowhere"⟩, 4, 1⟩
        [.OSReport (some "[GToolkit] Recived warp message.\n") [],
          .tryFindNamePos (cstr "Nowhere"),
          .OSReport (some "[GToolkit] GeneralPos %s was not found.\n")
            [.str (cstr "Nowhere")]] [] :=
  ⟨by decide,
    (named_warp (fun d => if d = cstr "Start" then some (⟨1, 2, 3⟩, ⟨4, 5, 6⟩) else none)
      ⟨⟨0x00000104, 0, cstr "Start"⟩, 0, 0⟩ [] (by decide) (by decide)).1 ⟨1, 2, 3⟩ ⟨4, 5, 6⟩
      (by decide),
    (named_warp (fun d => if d = cstr "Start" then some (⟨1, 2, 3⟩, ⟨4, 5, 6⟩) else none)
      ⟨⟨0x00000104, 0, cstr "Nowhere"⟩, 0, 0⟩ [] (by decide) (by decide)).2.1 (by decide)⟩

/-- C6. Stage-change gating: with opcode 0x03, for every data buffer, `control`
returns having called `requestChangeScenarioSelect` exactly once, with `mData`, and
`requestChangeStage` is called if and only if byte 1 of `mToolMessage` (bits 8..15)
is not `0xFF`, whatever the star byte and the top byte. -/
theorem stage_change_gating (look : List Nat → Option (TVec3f × TVec3f)) (g : Globals)
    (polls : List Nat) (hop : g.sInstance.mToolMessage % 256 = 3) :
    (control look g polls).isReturned = true ∧
    (control look g polls).trace.countP Event.isScenarioSelect = 1 ∧
    Event.requestChangeScenarioSelect g.sInstance.mData ∈ (control look g polls).trace ∧
    ((control look g polls).trace.any Event.isChangeStage = true ↔
      g.sInstance.mToolMessage / 256 % 256 ≠ 0xFF) := by
  rw [control_stage look g polls hop]
  by_cases hs : g.sInstance.mToolMessage / 256 % 256 = 0xFF
  · simp [hs, Outcome.trace, Outcome.isReturned, List.countP_cons, Event.isScenarioSelect,
      Event.isChangeStage]
  · simp [hs, Outcome.trace, Outcome.isReturned, List.countP_cons, Event.isScenarioSelect,
      Event.isChangeStage]

theorem stage_change_gating_witness :
    0xAB07FF03 % 256 = 3 ∧
    ((control (fun _ => none) ⟨⟨0xAB07FF03, 0, cstr "RedBlueExGalaxy"⟩, 0, 0⟩ []).isReturned
      = true ∧
    (control (fun _ => none) ⟨⟨0xAB07FF03, 0, cstr "RedBlueExGalaxy"⟩, 0, 0⟩ []).trace.countP
      Event.isScenarioSelect = 1 ∧
    Event.requestChangeScenarioSelect (cstr "RedBlueExGalaxy") ∈
      (control (fun _ => none) ⟨⟨0xAB07FF03, 0, cstr "RedBlueExGalaxy"⟩, 0, 0⟩ []).trace ∧
    ((control (fun _ => none) ⟨⟨0xAB07FF03, 0, cstr "RedBlueExGalaxy"⟩, 0, 0⟩ []).trace.any
      Event.isChangeStage = true ↔ 0xAB07FF03 / 256 % 256 ≠ 0xFF)) :=
  ⟨by decide,
    stage_change_gating (fun _ => none) ⟨⟨0xAB07FF03, 0, cstr "RedBlueExGalaxy"⟩, 0, 0⟩ []
      (by decide)⟩

/-- C7. Stage-change sequence: with opcode 0x03, scenario byte `s` (bits 8..15) other
than `0xFF` and star byte `t` (bits 16..23), `control` produces exactly, in this
order: the received-stage log, the log of the pair `(s', t')`, `stopStageBGM(60)`,
`closeSystemWipeCircleWithCaptureScreen(60)`, `requestChangeScenarioSelect(mData)`,
`requestChangeStage(mData, s', t', JMapIdInfo(0, 0))`, and then sets `mToolMessage`
to 0, where `s'` and `t'` are `s` and `t` read as signed bytes (a byte of `0x80` or
more is passed as the byte minus 256). -/
theorem stage_change_sequence (look : List Nat → Option (TVec3f × TVec3f)) (g : Globals)
    (polls : List Nat) (hop : g.sInstance.mToolMessage % 256 = 3)
    (hs : g.sInstance.mToolMessage / 256 % 256 ≠ 0xFF) :
    control look g polls =
      .returned ⟨{ g.sInstance with mToolMessage := 0 }, 3, g.sInstance.mToolMessage / 256⟩
        [.OSReport (some "[GToolkit] Recived stage message.\n") [],
          .OSReport (some "[GToolkit] %d %d\n")
            [.int (if g.sInstance.mToolMessage / 256 % 256 < 0x80
                then (g.sInstance.mToolMessage / 256 % 256 : Nat)
                else (g.sInstance.mToolMessage / 256 % 256 : Nat) - 256),
              .int (if g.sInstance.mToolMessage / 65536 % 256 < 0x80
                then (g.sInstance.mToolMessage / 65536 % 256 : Nat)
                else (g.sInstance.mToolMessage / 65536 % 256 : Nat) - 256)],
          .stopStageBGM 60,
          .closeSystemWipeCircleWithCaptureScreen 60,
          .requestChangeScenarioSelect g.sInstance.mData,
          .requestChangeStage g.sInstance.mData
            (if g.sInstance.mToolMessage / 256 % 256 < 0x80
              then (g.sInstance.mToolMessage / 256 % 256 : Nat)
              else (g.sInstance.mToolMessage / 256 % 256 : Nat) - 256)
            (if g.sInstance.mToolMessage / 65536 % 256 < 0x80
              then (g.sInstance.mToolMessage / 65536 % 256 : Nat)
              else (g.sInstance.mToolMessage / 65536 % 256 : Nat) - 256) ⟨0, 0⟩] polls := by
  rw [control_stage look g polls hop, if_neg hs,
    toS8_byte _ (Nat.mod_lt _ (by decide)), toS8_byte _ (Nat.mod_lt _ (by decide))]
  rfl

theorem stage_change_sequence_witness :
    (0x00050203 % 256 = 3 ∧ 0x00050203 / 256 % 256 ≠ 0xFF) ∧
    control (fun _ => none) ⟨⟨0x00050203, 0, cstr "ScenarioSelect"⟩, 0, 0⟩ [] =
      .returned ⟨⟨0, 0, cstr "ScenarioSelect"⟩, 3, 0x502⟩
        [.OSReport (some "[GToolkit] Recived stage message.\n") [],
          .OSReport (some "[GToolkit] %d %d\n") [.int 2, .int 5],
          .stopStageBGM 60,
          .closeSystemWipeCircleWithCaptureScreen 60,
          .requestChangeScenarioSelect (cstr "ScenarioSelect"),
          .requestChangeStage (cstr "ScenarioSelect") 2 5 ⟨0, 0⟩] [] :=
  ⟨by decide,
    stage_change_sequence (fun _ => none) ⟨⟨0x00050203, 0, cstr "ScenarioSelect"⟩, 0, 0⟩ []
      (by decide) (by decide)⟩

/-- C8, as stated, fails. The two values of each pair differ only in bits 24..31,
yet: `0x00000004` warps to the vector in `mData` while `0x01000004` makes a name
lookup; `0x000000FE` returns at once while `0x010000FE` enters the polling loop;
and `0x00000000` and `0x01000000` (opcode 0) each leave `mToolMessage` as it was, so
the final mailboxes differ. -/
theorem top_byte_is_read :
    (0x00000004 % 2 ^ 24 = 0x01000004 % 2 ^ 24 ∧
      (control (fun _ => none) ⟨⟨0x00000004, 0, List.replicate 64 0⟩, 0, 0⟩ []).trace ≠
        (control (fun _ => none) ⟨⟨0x01000004, 0, List.replicate 64 0⟩, 0, 0⟩ []).trace) ∧
    (0x000000FE % 2 ^ 24 = 0x010000FE % 2 ^ 24 ∧
      (control (fun _ => none) ⟨⟨0x000000FE, 0, List.replicate 64 0⟩, 0, 0⟩ []).isReturned ≠
        (control (fun _ => none) ⟨⟨0x010000FE, 0, List.replicate 64 0⟩, 0, 0⟩ []).isReturned) ∧
    (0x00000000 % 2 ^ 24 = 0x01000000 % 2 ^ 24 ∧
      (control (fun _ => none)
          ⟨⟨0x00000000, 0, List.replicate 64 0⟩, 0, 0⟩ []).globals.sInstance ≠
        (control (fun _ => none)
          ⟨⟨0x01000000, 0, List.replicate 64 0⟩, 0, 0⟩ []).globals.sInstance) := by
  decide

/-- C8, amended. The top byte of `mToolMessage` is part of the parameter
(`param = mToolMessage >> 8`) and is read only through the tests `param == 0` of
opcodes 0x04 and `0xFE`. For every two mailboxes equal except for bits 24..31 of
`mToolMessage`, provided that, when the opcode is 0x04 or `0xFE`, the two parameters
are both zero or both non-zero: `control` performs the same sequence of logs and
game actions, takes the same freeze or no-freeze decision (it has returned for the
one exactly when it has for the other, on the same observed values), and, when the
opcode is not 0 and it returns, ends in the same mailbox state. With opcode 0 each
mailbox is left as it was. -/
theorem top_byte_in_param (look : List Nat → Option (TVec3f × TVec3f)) (g1 g2 : Globals) (polls : List Nat)
    (hg : g1.sInstance.mGameMessage = g2.sInstance.mGameMessage)
    (hd : g1.sInstance.mData = g2.sInstance.mData)
    (hm : g1.sInstance.mToolMessage % 2 ^ 24 = g2.sInstance.mToolMessage % 2 ^ 24)
    (hz : g1.sInstance.mToolMessage % 256 = 4 ∨ g1.sInstance.mToolMessage % 256 = 0xFE →
      (g1.sInstance.mToolMessage / 256 = 0 ↔ g2.sInstance.mToolMessage / 256 = 0)) :
    (control look g1 polls).trace = (control look g2 polls).trace ∧
    (control look g1 polls).isReturned = (control look g2 polls).isReturned ∧
    (g1.sInstance.mToolMessage % 256 ≠ 0 → (control look g1 polls).isReturned = true →
      (control look g1 polls).globals.sInstance = (control look g2 polls).globals.sInstance) ∧
    (g1.sInstance.mToolMessage % 256 = 0 →
      (control look g1 polls).globals.sInstance = g1.sInstance ∧
      (control look g2 polls).globals.sInstance = g2.sInstance) := by
  have e0 : g2.sInstance.mToolMessage % 256 = g1.sInstance.mToolMessage % 256 := by omega
  have e1 : g2.sInstance.mToolMessage / 256 % 256 = g1.sInstance.mToolMessage / 256 % 256 := by
    omega
  have e2 : g2.sInstance.mToolMessage / 65536 % 256 =
      g1.sInstance.mToolMessage / 65536 % 256 := by
    omega
  have hcases : g1.sInstance.mToolMessage % 256 = 0 ∨ g1.sInstance.mToolMessage % 256 = 1 ∨
      g1.sInstance.mToolMessage % 256 = 2 ∨ g1.sInstance.mToolMessage % 256 = 3 ∨
      g1.sInstance.mToolMessage % 256 = 4 ∨ g1.sInstance.mToolMessage % 256 = 0xFE ∨
      g1.sInstance.mToolMessage % 256 = 0xFF ∨
      (5 ≤ g1.sInstance.mToolMessage % 256 ∧ g1.sInstance.mToolMessage % 256 ≤ 0xFD) := by
    omega
  rcases hcases with h | h | h | h | h | h | h | h
  · rw [control_idle look g1 polls h, control_idle look g2 polls (e0.trans h)]
    exact ⟨rfl, rfl, fun hne => absurd h hne, fun _ => ⟨rfl, rfl⟩⟩
  · rw [control_init look g1 polls h, control_init look g2 polls (e0.trans h)]
    refine ⟨rfl, rfl, fun _ _ => ?_, fun h0 => by omega⟩
    simp [Outcome.globals, hg, hd]
  · rw [control_object look g1 polls h, control_object look g2 polls (e0.trans h)]
    refine ⟨rfl, rfl, fun _ _ => ?_, fun h0 => by omega⟩
    simp [Outcome.globals, hg, hd]
  · rw [control_stage look g1 polls h, control_stage look g2 polls (e0.trans h), e1, e2, hd]
    refine ⟨rfl, rfl, fun _ _ => ?_, fun h0 => by omega⟩
    simp [Outcome.globals, hg, hd]
  · rw [control_warp look g1 polls h, control_warp look g2 polls (e0.trans h), hd]
    have hzz := hz (Or.inl h)
    refine ⟨?_, rfl, fun _ _ => ?_, fun h0 => by omega⟩
    · by_cases hp : g1.sInstance.mToolMessage / 256 = 0
      · simp [Outcome.trace, hp, hzz.1 hp]
      · have hp2 : g2.sInstance.mToolMessage / 256 ≠ 0 := fun h2 => hp (hzz.2 h2)
        simp [Outcome.trace, hp, hp2]
    · simp [Outcome.globals, hg, hd]
  · by_cases hp : g1.sInstance.mToolMessage / 256 = 0
    · rw [control_release_idle look g1 polls h hp,
        control_release_idle look g2 polls (e0.trans h) ((hz (Or.inr h)).1 hp)]
      refine ⟨rfl, rfl, fun _ _ => ?_, fun h0 => by omega⟩
      simp [Outcome.globals, hg, hd]
    · have hp2 : g2.sInstance.mToolMessage / 256 ≠ 0 := fun h2 => hp ((hz (Or.inr h)).2 h2)
      rw [control_freeze look g1 polls h hp, control_freeze look g2 polls (e0.trans h) hp2]
      cases polls with
      | nil =>
        refine ⟨rfl, rfl, ?_, fun h0 => by omega⟩
        intro _ hr
        simp [freezeLoop, Outcome.isReturned] at hr
      | cons v vs =>
        rw [freezeLoop_congr ⟨g1.sInstance, 0xFE, g1.sInstance.mToolMessage / 256⟩
          ⟨g2.sInstance, 0xFE, g2.sInstance.mToolMessage / 256⟩ hg hd v vs]
        exact ⟨rfl, rfl, fun _ _ => rfl, fun h0 => by omega⟩
  · rw [control_null_report look g1 polls h, control_null_report look g2 polls (e0.trans h)]
    refine ⟨rfl, rfl, fun _ _ => ?_, fun h0 => by omega⟩
    simp [Outcome.globals, hg, hd]
  · rw [control_unknown look g1 polls h.1 h.2,
      control_unknown look g2 polls (by omega) (by omega)]
    refine ⟨rfl, rfl, fun _ _ => ?_, fun h0 => by omega⟩
    simp [Outcome.globals, hg, hd]

theorem top_byte_in_param_witness :
    ((7 : Nat) = 7 ∧ cstr "Start" = cstr "Start" ∧
      0x00000104 % 2 ^ 24 = 0x7F000104 % 2 ^ 24 ∧
      (0x00000104 % 256 = 4 ∨ 0x00000104 % 256 = 0xFE →
        (0x00000104 / 256 = 0 ↔ 0x7F000104 / 256 = 0))) ∧
    (control (fun _ => some (⟨1, 2, 3⟩, ⟨4, 5, 6⟩)) ⟨⟨0x00000104, 7, cstr "Start"⟩, 0, 0⟩
        []).trace =
      (control (fun _ => some (⟨1, 2, 3⟩, ⟨4, 5, 6⟩)) ⟨⟨0x7F000104, 7, cstr "Start"⟩, 0, 0⟩
        []).trace :=
  ⟨by decide,
    (top_byte_in_param (fun _ => some (⟨1, 2, 3⟩, ⟨4, 5, 6⟩))
      ⟨⟨0x00000104, 7, cstr "Start"⟩, 0, 0⟩ ⟨⟨0x7F000104, 7, cstr "Start"⟩, 0, 0⟩ []
      (by decide) (by decide) (by decide) (by decide)).1⟩

/-- C9. Decode: for every 32-bit value `m` of `mToolMessage`, `parseCommand` sets
`handle` to `m mod 256` and `param` to `m div 256`, a value below `2 ^ 24`, and
leaves the mailbox as it was. -/
theorem parseCommand_decode (g : Globals) (h32 : g.sInstance.mToolMessage < 2 ^ 32) :
    (parseCommand g).handle = g.sInstance.mToolMessage % 256 ∧
    (parseCommand g).param = g.sInstance.mToolMessage / 256 ∧
    (parseCommand g).param < 2 ^ 24 ∧
    (parseCommand g).sInstance = g.sInstance := by
  rw [parseCommand_eq]
  refine ⟨rfl, rfl, ?_, rfl⟩
  show g.sInstance.mToolMessage / 256 < 2 ^ 24
  omega

theorem parseCommand_decode_witness :
    0xDEADBEEF < 2 ^ 32 ∧
    ((parseCommand ⟨⟨0xDEADBEEF, 1, cstr "x"⟩, 0, 0⟩).handle = 0xDEADBEEF % 256 ∧
    (parseCommand ⟨⟨0xDEADBEEF, 1, cstr "x"⟩, 0, 0⟩).param = 0xDEADBEEF / 256 ∧
    (parseCommand ⟨⟨0xDEADBEEF, 1, cstr "x"⟩, 0, 0⟩).param < 2 ^ 24 ∧
    (parseCommand ⟨⟨0xDEADBEEF, 1, cstr "x"⟩, 0, 0⟩).sInstance = ⟨0xDEADBEEF, 1, cstr "x"⟩) :=
  ⟨by decide, parseCommand_decode ⟨⟨0xDEADBEEF, 1, cstr "x"⟩, 0, 0⟩ (by decide)⟩

/-- C10. Unknown opcodes: when the opcode is in `0x05..0xFD` (none of 0x00, 0x01,
0x02, 0x03, 0x04, `0xFE`, `0xFF`), with any parameter and any data, `control` emits
no log and no game action, returns after the single decode of the value it found
(no observed value is read, and `handle` and `param` hold that decode), and sets
`mToolMessage` to 0. -/
theorem unknown_opcode_ignored (look : List Nat → Option (TVec3f × TVec3f)) (g : Globals)
    (polls : List Nat) (hlo : 5 ≤ g.sInstance.mToolMessage % 256)
    (hhi : g.sInstance.mToolMessage % 256 ≤ 0xFD) :
    control look g polls =
      .returned ⟨{ g.sInstance with mToolMessage := 0 }, g.sInstance.mToolMessage % 256,
        g.sInstance.mToolMessage / 256⟩ [] polls :=
  control_unknown look g polls hlo hhi

theorem unknown_opcode_ignored_witness :
    (5 ≤ 0x12345677 % 256 ∧ 0x12345677 % 256 ≤ 0xFD) ∧
    control (fun _ => some (⟨1, 2, 3⟩, ⟨4, 5, 6⟩)) ⟨⟨0x12345677, 1, cstr "Start"⟩, 0, 0⟩
        [0xFE, 3] =
      .returned ⟨⟨0, 1, cstr "Start"⟩, 0x77, 0x123456⟩ [] [0xFE, 3] :=
  ⟨by decide,
    unknown_opcode_ignored (fun _ => some (⟨1, 2, 3⟩, ⟨4, 5, 6⟩))
      ⟨⟨0x12345677, 1, cstr "Start"⟩, 0, 0⟩ [0xFE, 3] (by decide) (by decide)⟩

/-! ## The claims on the hook, the constructor and the frame of the dispatcher -/

/-- C11, as stated, fails: the hook code uses `r6` as a scratch register. In the
example state `r6` is 0 and stays 0 under the original instruction alone, but is
`0x80400004` after `handleException`. -/
theorem hook_clobbers_r6 :
    hookState.gpr 6 = 0 ∧ ((Instr.lwz 28 8 3).exec hookState).gpr 6 = 0 ∧
    (handleException hookState).gpr 6 = 0x80400004 ∧
    (handleException hookState).gpr 6 ≠ ((Instr.lwz 28 8 3).exec hookState).gpr 6 := by
  decide

/-- C11, amended. For every machine state, the state after `handleException` agrees
with the state after the original instruction `lwz r28, 8(r3)` alone on everything
except register `r6` and the word at offset 4 past the address held in the discovery
slot (the `mGameMessage` field of the mailbox once it has been constructed): `r28`
holds the word at `r3 + 8`, every register other than `r6` is as the original
instruction leaves it, `r6` is overwritten with that address, and no other byte of
memory is written. -/
theorem hook_preserves_original (s : Machine) :
    (handleException s).gpr 28 = loadWord s.mem (s.gpr 3 + 8) ∧
    (∀ r, r ≠ 6 → (handleException s).gpr r = ((Instr.lwz 28 8 3).exec s).gpr r) ∧
    (handleException s).gpr 6 = (loadWord s.mem TOOL_ACCESS_ADDRESS + 4) % 2 ^ 32 ∧
    (∀ x, (∀ i, i < 4 → x % 2 ^ 32 ≠ (loadWord s.mem TOOL_ACCESS_ADDRESS + 4 + i) % 2 ^ 32) →
      loadByte (handleException s).mem x = loadByte ((Instr.lwz 28 8 3).exec s).mem x) := by
  rw [handleException_eq, lwz_original]
  refine ⟨by simp, ?_, by simp, ?_⟩
  · intro r hr
    simp [hr]
  · intro x hx
    exact loadByte_storeWord_off _ _ _ _ hx

theorem hook_preserves_original_witness :
    (handleException hookState).gpr 28 = 0x12345678 ∧
    (handleException hookState).gpr 3 = 0x80500000 ∧
    loadByte (handleException hookState).mem 0x80400003 = 1 :=
  ⟨(hook_preserves_original hookState).1.trans (by decide),
    ((hook_preserves_original hookState).2.1 3 (by decide)).trans (by decide),
    ((hook_preserves_original hookState).2.2.2 0x80400003 (by decide)).trans (by decide)⟩

/-- C12, as stated, fails: `handleException` does not call `control`. In the example
state the mailbox holds the pending command `0x00000001`; one call of `control` would
log the initialisation message and leave `mToolMessage` equal to 0, but after one
execution of the handler `mToolMessage` is still 1. -/
theorem hook_does_not_dispatch :
    loadWord hookState.mem TOOL_ACCESS_ADDRESS = 0x80400000 ∧
    (MessageData.load hookState.mem 0x80400000).mToolMessage = 1 ∧
    (control (fun _ => none) ⟨MessageData.load hookState.mem 0x80400000, 0, 0⟩ []).trace =
      [.OSReport (some "[GToolkit] Initialized Tool.\n") []] ∧
    (control (fun _ => none)
      ⟨MessageData.load hookState.mem 0x80400000, 0, 0⟩ []).globals.sInstance.mToolMessage = 0 ∧
    (MessageData.load (handleException hookState).mem 0x80400000).mToolMessage = 1 := by
  decide

/-- C12, amended. Reaching the hooked address does not run the dispatcher: for every
machine state in which the discovery slot holds the mailbox address `a`, one
execution of the handler installed at `0x8050F4FC` (`handleException`) changes
nothing in the mailbox but `mGameMessage`, which receives the word the original
instruction loaded from `r3 + 8` into `r28`; `mToolMessage` and `mData` are as
before, so a pending command with non-zero opcode is still pending afterwards. -/
theorem hook_leaves_command_pending (s : Machine) (a : Nat)
    (hslot : loadWord s.mem TOOL_ACCESS_ADDRESS = a) :
    MessageData.load (handleException s).mem a =
      { MessageData.load s.mem a with mGameMessage := loadWord s.mem (s.gpr 3 + 8) } ∧
    ((MessageData.load s.mem a).mToolMessage % 256 ≠ 0 →
      (MessageData.load (handleException s).mem a).mToolMessage ≠ 0) ∧
    (handleException s).gpr 28 = loadWord s.mem (s.gpr 3 + 8) := by
  have hm := hook_mailbox s a hslot
  refine ⟨hm, ?_, ?_⟩
  · intro h
    rw [hm]
    intro h0
    simp only at h0
    rw [h0] at h
    exact h rfl
  · rw [handleException_eq]
    simp

theorem hook_leaves_command_pending_witness :
    loadWord hookState.mem TOOL_ACCESS_ADDRESS = 0x80400000 ∧
    MessageData.load (handleException hookState).mem 0x80400000 =
      ⟨1, 0x12345678, List.replicate 64 0⟩ :=
  ⟨by decide, (hook_leaves_command_pending hookState 0x80400000 (by decide)).1.trans (by decide)⟩

/-- C13, as stated, fails. The encoding of `lwz r28, 8(r3)` is `0x83830008`. In the
example state the hook code stores `0x12345678`, the word it loaded from `r3 + 8`,
at `0x80400004`, four bytes past the address held in the discovery slot; the word
at `0x80002FF4 + 4` is not written. With another address in the slot the store goes
elsewhere, and with another `r3` another word is stored. -/
theorem hook_stores_loaded_word :
    encodeLwz 28 8 3 = 0x83830008 ∧
    loadWord hookState.mem 0x80400004 = 0 ∧
    loadWord (handleException hookState).mem 0x80400004 = 0x12345678 ∧
    loadWord (handleException hookState).mem (TOOL_ACCESS_ADDRESS + 4) = 0 ∧
    loadWord (handleException
      ⟨hookState.gpr, storeWord hookState.mem TOOL_ACCESS_ADDRESS 0x80600000⟩).mem 0x80600004
      = 0x12345678 ∧
    loadWord (handleException ⟨fun _ => 0x80400000 - 8, hookState.mem⟩).mem 0x80400004 = 1 := by
  decide

/-- C13, amended. The single word the hook code stores is the word loaded from
address `r3 + 8`, that is the result of the original instruction `lwz r28, 8(r3)`,
not its encoding; it is stored four bytes past the address held in the discovery
slot, not past the slot itself. Both the word and the place depend on the memory
and the registers at hook time. The memory after the handler is the memory before
it with that one store. -/
theorem hook_single_store (s : Machine) :
    (handleException s).mem =
      storeWord s.mem (loadWord s.mem TOOL_ACCESS_ADDRESS + 4) (loadWord s.mem (s.gpr 3 + 8)) ∧
    loadWord s.mem (s.gpr 3 + 8) = ((Instr.lwz 28 8 3).exec s).gpr 28 := by
  rw [handleException_eq, lwz_original]
  exact ⟨rfl, by simp⟩

/-- C14, as stated, fails for an instance laid over the discovery slot. With the
instance at `0x80002FF0` its `mGameMessage` field is the slot itself: in a memory of
zero bytes the field is 0 before construction and `0x80002FF0` after it, so the
fields of the instance are not what they were. -/
theorem construct_overwrites_overlapping_field :
    0x80002FF0 < 2 ^ 32 ∧ 0x80002FF0 + 4 = TOOL_ACCESS_ADDRESS ∧
    (MessageData.load (fun _ => 0) 0x80002FF0).mGameMessage = 0 ∧
    (MessageData.load (MessageData.MessageData (fun _ => 0) 0x80002FF0).1
      0x80002FF0).mGameMessage = 0x80002FF0 ∧
    MessageData.load (MessageData.MessageData (fun _ => 0) 0x80002FF0).1 0x80002FF0 ≠
      MessageData.load (fun _ => 0) 0x80002FF0 := by
  decide

/-- C14, amended. Publish on construct: for every memory and every 32-bit instance
address `this`, after the constructor the word at the discovery slot `0x80002FF4` is
`this` and no byte outside the four bytes of the slot is changed; the fields
`mToolMessage`, `mGameMessage` and `mData` of the instance are exactly what they
were before construction when the 72 bytes of the instance do not overlap the four
bytes of the slot. The constructor logs the address. -/
theorem construct_publishes (mem : Nat → Nat) (this : Nat) (h32 : this < 2 ^ 32) :
    loadWord (MessageData.MessageData mem this).1 TOOL_ACCESS_ADDRESS = this ∧
    (∀ x, (∀ i, i < 4 → x % 2 ^ 32 ≠ (TOOL_ACCESS_ADDRESS + i) % 2 ^ 32) →
      loadByte (MessageData.MessageData mem this).1 x = loadByte mem x) ∧
    (this + 72 ≤ TOOL_ACCESS_ADDRESS ∨ TOOL_ACCESS_ADDRESS + 4 ≤ this →
      MessageData.load (MessageData.MessageData mem this).1 this = MessageData.load mem this) ∧
    (MessageData.MessageData mem this).2 =
      [.OSReport (some "[GToolkit] MessageData created at %p.\n") [.ptr this]] := by
  refine ⟨?_, ?_, ?_, rfl⟩
  · simp only [MessageData.MessageData]
    rw [loadWord_storeWord, Nat.mod_eq_of_lt h32]
  · intro x hx
    exact loadByte_storeWord_off _ _ _ _ hx
  · intro hd
    simp only [MessageData.MessageData, MessageData.load]
    have ht : TOOL_ACCESS_ADDRESS = 0x80002FF4 := rfl
    rw [ht] at hd ⊢
    have h1 : loadWord (storeWord mem 0x80002FF4 this) this = loadWord mem this :=
      loadWord_storeWord_off _ _ _ _ (fun i j hi hj => by omega)
    have h2 : loadWord (storeWord mem 0x80002FF4 this) (this + 4) = loadWord mem (this + 4) :=
      loadWord_storeWord_off _ _ _ _ (fun i j hi hj => by omega)
    have h3 : (List.range 64).map
        (fun i => loadByte (storeWord mem 0x80002FF4 this) (this + 8 + i)) =
        (List.range 64).map (fun i => loadByte mem (this + 8 + i)) := by
      apply List.map_congr_left
      intro k hk
      have hk64 : k < 64 := List.mem_range.1 hk
      exact loadByte_storeWord_off _ _ _ _ (fun i hi => by omega)
    rw [h1, h2, h3]

theorem construct_publishes_witness :
    0x80400000 < 2 ^ 32 ∧
    loadWord (MessageData.MessageData (storeWord (fun _ => 0xAB) 0x80400000 0x00050203)
      0x80400000).1 TOOL_ACCESS_ADDRESS = 0x80400000 ∧
    MessageData.load (MessageData.MessageData (storeWord (fun _ => 0xAB) 0x80400000 0x00050203)
      0x80400000).1 0x80400000 = ⟨0x00050203, 0xABABABAB, List.replicate 64 0xAB⟩ :=
  ⟨by decide,
    (construct_publishes (storeWord (fun _ => 0xAB) 0x80400000 0x00050203) 0x80400000
      (by decide)).1,
    ((construct_publishes (storeWord (fun _ => 0xAB) 0x80400000 0x00050203) 0x80400000
      (by decide)).2.2.1 (by decide)).trans (by decide)⟩

/-- C15. Commands without a game action: with opcode 0x01, 0x02 or `0xFF` and any
parameter, `control` emits exactly one log call (for `0xFF` the call `OSReport(NULL)`,
with no format and no argument) and no game action; with opcode `0xFE` and
parameter 0 it emits nothing and does not enter the polling loop. In all four cases
`control` returns after the single decode of the value it found, without reading an
observed value, with `mToolMessage` set to 0 and `mData` and `mGameMessage`
unchanged. -/
theorem log_only_commands (look : List Nat → Option (TVec3f × TVec3f)) (g : Globals)
    (polls : List Nat)
    (hop : g.sInstance.mToolMessage % 256 = 1 ∨ g.sInstance.mToolMessage % 256 = 2 ∨
      g.sInstance.mToolMessage % 256 = 0xFF ∨
      (g.sInstance.mToolMessage % 256 = 0xFE ∧ g.sInstance.mToolMessage / 256 = 0)) :
    control look g polls =
      .returned ⟨{ g.sInstance with mToolMessage := 0 }, g.sInstance.mToolMessage % 256,
        g.sInstance.mToolMessage / 256⟩ (control look g polls).trace polls ∧
    (g.sInstance.mToolMessage % 256 = 1 →
      (control look g polls).trace = [.OSReport (some "[GToolkit] Initialized Tool.\n") []]) ∧
    (g.sInstance.mToolMessage % 256 = 2 →
      (control look g polls).trace =
        [.OSReport (some "[GToolkit] Object message not supported yet.\n") []]) ∧
    (g.sInstance.mToolMessage % 256 = 0xFF →
      (control look g polls).trace = [.OSReport none []]) ∧
    (g.sInstance.mToolMessage % 256 = 0xFE → (control look g polls).trace = []) ∧
    (control look g polls).trace.countP Event.isGameAction = 0 ∧
    (g.sInstance.mToolMessage % 256 ≠ 0xFE →
      (control look g polls).trace.countP Event.isLog = 1) := by
  rcases hop with h | h | h | h
  · rw [control_init look g polls h]
    simp [Outcome.trace, h, List.countP_cons, Event.isGameAction, Event.isLog]
  · rw [control_object look g polls h]
    simp [Outcome.trace, h, List.countP_cons, Event.isGameAction, Event.isLog]
  · rw [control_null_report look g polls h]
    simp [Outcome.trace, h, List.countP_cons, Event.isGameAction, Event.isLog]
  · rw [control_release_idle look g polls h.1 h.2]
    simp [Outcome.trace, h.1, h.2]

theorem log_only_commands_witness :
    (0x00ABCDFF % 256 = 1 ∨ 0x00ABCDFF % 256 = 2 ∨ 0x00ABCDFF % 256 = 0xFF ∨
      (0x00ABCDFF % 256 = 0xFE ∧ 0x00ABCDFF / 256 = 0)) ∧
    control (fun _ => none) ⟨⟨0x00ABCDFF, 7, cstr "Start"⟩, 0, 0⟩ [0xFE] =
      .returned ⟨⟨0, 7, cstr "Start"⟩, 0xFF, 0xABCD⟩ [.OSReport none []] [0xFE] :=
  ⟨by decide,
    (log_only_commands (fun _ => none) ⟨⟨0x00ABCDFF, 7, cstr "Start"⟩, 0, 0⟩ [0xFE]
      (by decide)).1.trans (by decide)⟩

/-- C16. No state carried between cycles: for every `mToolMessage`, every data
buffer, every lookup and every sequence of observed values, the logs and game
actions, the return or freeze status, and the `mToolMessage` and `mData` that
`control` leaves are the same for every pair of prior values of the scratch
variables `handle` and `param` and for every value of `mGameMessage`, which is
itself carried through unchanged. In particular a call made after a freeze was
released (scratch values `0xFE` and 0) has the same outcome as a call made with
the scratch values of a fresh process (0 and 0). -/
theorem control_stateless (look : List Nat → Option (TVec3f × TVec3f)) (m : Nat)
    (d : List Nat) (gm1 gm2 h1 p1 h2 p2 : Nat) (polls : List Nat) :
    (control look ⟨⟨m, gm1, d⟩, h1, p1⟩ polls).trace =
      (control look ⟨⟨m, gm2, d⟩, h2, p2⟩ polls).trace ∧
    (control look ⟨⟨m, gm1, d⟩, h1, p1⟩ polls).isReturned =
      (control look ⟨⟨m, gm2, d⟩, h2, p2⟩ polls).isReturned ∧
    (control look ⟨⟨m, gm1, d⟩, h1, p1⟩ polls).globals.sInstance.mToolMessage =
      (control look ⟨⟨m, gm2, d⟩, h2, p2⟩ polls).globals.sInstance.mToolMessage ∧
    (control look ⟨⟨m, gm1, d⟩, h1, p1⟩ polls).globals.sInstance.mData =
      (control look ⟨⟨m, gm2, d⟩, h2, p2⟩ polls).globals.sInstance.mData ∧
    (control look ⟨⟨m, gm1, d⟩, h1, p1⟩ polls).globals.sInstance.mGameMessage = gm1 ∧
    (control look ⟨⟨m, gm2, d⟩, h2, p2⟩ polls).globals.sInstance.mGameMessage = gm2 ∧
    control look ⟨⟨m, gm1, d⟩, h1, p1⟩ polls = control look ⟨⟨m, gm1, d⟩, h2, p2⟩ polls ∧
    control look ⟨⟨m, gm1, d⟩, 0xFE, 0⟩ polls = control look ⟨⟨m, gm1, d⟩, 0, 0⟩ polls := by
  have f1 := control_frame look ⟨⟨m, gm1, d⟩, h1, p1⟩ polls
  have f2 := control_frame look ⟨⟨m, gm2, d⟩, h2, p2⟩ polls
  refine ⟨?_, ?_, ?_, f1.2.1.trans f2.2.1.symm, f1.1, f2.1, rfl, rfl⟩
  all_goals
    rw [control_scratch look ⟨m, gm2, d⟩ h2 p2 h1 p1]
    rcases opcode_cases m with h | h | h | h | h | h | h | h | h
    · rw [control_idle look ⟨⟨m, gm1, d⟩, h1, p1⟩ polls h,
        control_idle look ⟨⟨m, gm2, d⟩, h1, p1⟩ polls h]
      rfl
    · rw [control_init look ⟨⟨m, gm1, d⟩, h1, p1⟩ polls h,
        control_init look ⟨⟨m, gm2, d⟩, h1, p1⟩ polls h]
      rfl
    · rw [control_object look ⟨⟨m, gm1, d⟩, h1, p1⟩ polls h,
        control_object look ⟨⟨m, gm2, d⟩, h1, p1⟩ polls h]
      rfl
    · rw [control_stage look ⟨⟨m, gm1, d⟩, h1, p1⟩ polls h,
        control_stage look ⟨⟨m, gm2, d⟩, h1, p1⟩ polls h]
      rfl
    · rw [control_warp look ⟨⟨m, gm1, d⟩, h1, p1⟩ polls h,
        control_warp look ⟨⟨m, gm2, d⟩, h1, p1⟩ polls h]
      rfl
    · rw [control_release_idle look ⟨⟨m, gm1, d⟩, h1, p1⟩ polls h.1 h.2,
        control_release_idle look ⟨⟨m, gm2, d⟩, h1, p1⟩ polls h.1 h.2]
      rfl
    · rw [control_freeze look ⟨⟨m, gm1, d⟩, h1, p1⟩ polls h.1 h.2,
        control_freeze look ⟨⟨m, gm2, d⟩, h1, p1⟩ polls h.1 h.2]
      have hg := freezeLoop_game gm1 gm2 d polls m 0xFE (m / 256)
      revert hg
      generalize freezeLoop ⟨⟨m, gm1, d⟩, 0xFE, m / 256⟩ polls = r1
      generalize freezeLoop ⟨⟨m, gm2, d⟩, 0xFE, m / 256⟩ polls = r2
      obtain ⟨a1, o1⟩ := r1
      obtain ⟨a2, o2⟩ := r2
      intro hg
      simp only at hg
      obtain ⟨e1, e2, -, -⟩ := hg
      subst e1
      cases o1 with
      | none => first | rfl | exact e2
      | some u => rfl
    · rw [control_null_report look ⟨⟨m, gm1, d⟩, h1, p1⟩ polls h,
        control_null_report look ⟨⟨m, gm2, d⟩, h1, p1⟩ polls h]
      rfl
    · rw [control_unknown look ⟨⟨m, gm1, d⟩, h1, p1⟩ polls h.1 h.2,
        control_unknown look ⟨⟨m, gm2, d⟩, h1, p1⟩ polls h.1 h.2]
      rfl

/-- C17. The only mailbox field `control` writes is `mToolMessage`: for every opcode,
parameter, data buffer, lookup and sequence of observed values, `mGameMessage` and
`mData` are the same after `control` as before it, and the only value `control`
writes to `mToolMessage` is 0: when it has returned, `mToolMessage` is 0 or, with
opcode 0, what it was; while it is still polling, `mToolMessage` is the last value
observed (what the external writer stored) or, with none observed, what it was. -/
theorem control_writes_only_toolMessage (look : List Nat → Option (TVec3f × TVec3f))
    (g : Globals) (polls : List Nat) :
    (control look g polls).globals.sInstance.mGameMessage = g.sInstance.mGameMessage ∧
    (control look g polls).globals.sInstance.mData = g.sInstance.mData ∧
    ((control look g polls).isReturned = true →
      (control look g polls).globals.sInstance.mToolMessage = 0 ∨
      (g.sInstance.mToolMessage % 256 = 0 ∧
        (control look g polls).globals.sInstance.mToolMessage = g.sInstance.mToolMessage)) ∧
    ((control look g polls).isReturned = false →
      (control look g polls).globals.sInstance.mToolMessage =
        polls.getLastD g.sInstance.mToolMessage) :=
  control_frame look g polls

theorem control_writes_only_toolMessage_witness :
    (control (fun _ => none) ⟨⟨0x000001FE, 7, cstr "Start"⟩, 0, 0⟩
      [3, 0xFE, 5]).globals.sInstance = ⟨0, 7, cstr "Start"⟩ ∧
    (control (fun _ => none) ⟨⟨0x000001FE, 7, cstr "Start"⟩, 0, 0⟩
      [3, 0x104]).globals.sInstance.mToolMessage = 0x104 :=
  ⟨by decide,
    ((control_writes_only_toolMessage (fun _ => none) ⟨⟨0x000001FE, 7, cstr "Start"⟩, 0, 0⟩
      [3, 0x104]).2.2.2 (by decide)).trans (by decide)⟩

/-- C18. Once the mailbox has been constructed, so that the discovery slot holds the
address `a` of an instance lying in the address space, every execution of
`handleException` stores the word read from `r3 + 8` in the word at `a + 4`, the
`mGameMessage` field; `mToolMessage` and `mData` are unchanged; `r28` holds the word
that was at `r3 + 8` before the store, also when `r3 + 8 = a + 4`; and `r6` is
overwritten with `a + 4`. -/
theorem hook_stores_gameMessage (s : Machine) (a : Nat)
    (hslot : loadWord s.mem TOOL_ACCESS_ADDRESS = a) (ha : a + 72 ≤ 2 ^ 32) :
    loadWord (handleException s).mem (a + 4) = loadWord s.mem (s.gpr 3 + 8) ∧
    (MessageData.load (handleException s).mem a).mGameMessage = loadWord s.mem (s.gpr 3 + 8) ∧
    (MessageData.load (handleException s).mem a).mToolMessage =
      (MessageData.load s.mem a).mToolMessage ∧
    (MessageData.load (handleException s).mem a).mData = (MessageData.load s.mem a).mData ∧
    (handleException s).gpr 28 = loadWord s.mem (s.gpr 3 + 8) ∧
    (s.gpr 3 + 8 = a + 4 → (handleException s).gpr 28 = (MessageData.load s.mem a).mGameMessage) ∧
    (handleException s).gpr 6 = a + 4 := by
  have hm := hook_mailbox s a hslot
  have h28 : (handleException s).gpr 28 = loadWord s.mem (s.gpr 3 + 8) := by
    rw [handleException_eq]
    simp
  refine ⟨congrArg MessageData.mGameMessage hm, by rw [hm], by rw [hm], by rw [hm], h28, ?_, ?_⟩
  · intro h
    rw [h28, h]
    rfl
  · rw [handleException_eq, hslot]
    simp only [if_true]
    exact Nat.mod_eq_of_lt (by omega)

theorem hook_stores_gameMessage_witness :
    (loadWord (MessageData.MessageData (storeWord (fun _ => 0) 0x80400004 0xCAFE0001)
        0x80400000).1 TOOL_ACCESS_ADDRESS = 0x80400000 ∧ 0x80400000 + 72 ≤ 2 ^ 32) ∧
    (handleException ⟨fun r => if r = 3 then 0x803FFFFC else 0,
      (MessageData.MessageData (storeWord (fun _ => 0) 0x80400004 0xCAFE0001)
        0x80400000).1⟩).gpr 28 = 0xCAFE0001 ∧
    (handleException ⟨fun r => if r = 3 then 0x803FFFFC else 0,
      (MessageData.MessageData (storeWord (fun _ => 0) 0x80400004 0xCAFE0001)
        0x80400000).1⟩).gpr 6 = 0x80400000 + 4 :=
  ⟨by decide,
    (hook_stores_gameMessage ⟨fun r => if r = 3 then 0x803FFFFC else 0,
      (MessageData.MessageData (storeWord (fun _ => 0) 0x80400004 0xCAFE0001)
        0x80400000).1⟩ 0x80400000 (by decide) (by decide)).2.2.2.2.1.trans (by decide),
    (hook_stores_gameMessage ⟨fun r => if r = 3 then 0x803FFFFC else 0,
      (MessageData.MessageData (storeWord (fun _ => 0) 0x80400004 0xCAFE0001)
        0x80400000).1⟩ 0x80400000 (by decide) (by decide)).2.2.2.2.2.2⟩

end GToolkitCore
